import Mathlib

/-!
Shallow embedding of the `ai-sdk-cc-provider` translation layer
(`src/claude-code-provider.ts`): the prompt flattener, the finish-reason and
warning mappers, the non-streaming collector (`doGenerate`) and the streaming
translator (`doStream`), together with theorems settling the specification
claims about them.

JavaScript values that flow through the translator (tool inputs, tool-result
contents) are modelled by the inductive `JSValue`; `JSON.parse`-validity of a
string (the source's `isParsableJson`) is modelled by a fuelled JSON-grammar
scanner, and `JSON.stringify` by `stringify` / `stringifyPretty`.  JavaScript
`Map`s keyed by block index are modelled by association lists with
replace-or-append insertion, matching `Map.set` semantics.  The upstream
`query` generator is modelled by the list of messages it yields plus a
`Tail` describing how it ends (normal exhaustion or a thrown error).
-/

namespace CCP

/-- Model of a JavaScript runtime value as far as the provider inspects one:
`undefined`, `null`, booleans, numbers (restricted to integers; the provider
never computes with them), strings, arrays and plain objects. -/
inductive JSValue where
  | undef
  | jsNull
  | jsBool (b : Bool)
  | jsNum (n : Int)
  | jsStr (s : String)
  | jsArr (elems : List JSValue)
  | jsObj (fields : List (String × JSValue))
deriving Repr

/-- JavaScript truthiness for the modelled values (`undefined`, `null`,
`false`, `0` and the empty string are falsy). -/
def jsTruthy : JSValue → Bool
  | .undef => false
  | .jsNull => false
  | .jsBool b => b
  | .jsNum n => decide (n ≠ 0)
  | .jsStr s => decide (s ≠ "")
  | .jsArr _ => true
  | .jsObj _ => true

/-- JavaScript loose non-null check `x != null`: false exactly on
`undefined` and `null`. -/
def jsNonNull : JSValue → Bool
  | .undef => false
  | .jsNull => false
  | _ => true

/-- Whether the value is a string (the `typeof x === 'string'` test). -/
def isJsStr : JSValue → Bool
  | .jsStr _ => true
  | _ => false

/-- Hexadecimal digit character for `\u00XX` escapes. -/
def hexDigitChar (n : Nat) : Char :=
  if n < 10 then Char.ofNat (48 + n) else Char.ofNat (87 + n)

/-- JSON string escaping of one character, as `JSON.stringify` performs it. -/
def escapeJsonChar (c : Char) : String :=
  if c = '"' then "\\\""
  else if c = '\\' then "\\\\"
  else if c = '\n' then "\\n"
  else if c = '\r' then "\\r"
  else if c = '\t' then "\\t"
  else if c.val.toNat = 8 then "\\b"
  else if c.val.toNat = 12 then "\\f"
  else if c.val.toNat < 32 then
    "\\u00" ++ String.mk [hexDigitChar (c.val.toNat / 16), hexDigitChar (c.val.toNat % 16)]
  else String.singleton c

/-- A JSON string literal (quotes plus escaping) as `JSON.stringify` emits it. -/
def quoteJsonString (s : String) : String :=
  "\"" ++ String.join (s.data.map escapeJsonChar) ++ "\""

mutual

/-- Compact `JSON.stringify`.  `undefined` only ever reaches this function as
an array element, where `JSON.stringify` renders `null`; `undefined`-valued
object fields are omitted, as in JavaScript. -/
def stringify : JSValue → String
  | .undef => "null"
  | .jsNull => "null"
  | .jsBool b => cond b "true" "false"
  | .jsNum n => toString n
  | .jsStr s => quoteJsonString s
  | .jsArr es => "[" ++ stringifyElems es ++ "]"
  | .jsObj fs => "\x7b" ++ stringifyFields fs true ++ "\x7d"

/-- Comma-joined array elements for `stringify`. -/
def stringifyElems : List JSValue → String
  | [] => ""
  | [v] => stringify v
  | v :: rest => stringify v ++ "," ++ stringifyElems rest

/-- Comma-joined object fields for `stringify`; `undefined`-valued fields are
skipped.  The boolean records whether no field has been emitted yet. -/
def stringifyFields : List (String × JSValue) → Bool → String
  | [], _ => ""
  | (k, v) :: rest, isFirst =>
    match v with
    | .undef => stringifyFields rest isFirst
    | .jsNull => (cond isFirst "" ",") ++ quoteJsonString k ++ ":" ++ "null" ++ stringifyFields rest false
    | v => (cond isFirst "" ",") ++ quoteJsonString k ++ ":" ++ stringify v ++ stringifyFields rest false

end

/-- Indentation of `n` spaces for pretty `JSON.stringify(x, null, 2)`. -/
def jsonIndent (n : Nat) : String := String.mk (List.replicate n ' ')

/-- Whether a value is `undefined` (used for field omission). -/
def jsIsUndef : JSValue → Bool
  | .undef => true
  | _ => false

mutual

/-- Pretty `JSON.stringify(x, null, 2)` at nesting depth `ind` (the indent of
the closing bracket), as used by the prompt flattener's tool catalog. -/
def stringifyPretty (ind : Nat) : JSValue → String
  | .undef => "null"
  | .jsNull => "null"
  | .jsBool b => cond b "true" "false"
  | .jsNum n => toString n
  | .jsStr s => quoteJsonString s
  | .jsArr [] => "[]"
  | .jsArr es => "[\n" ++ stringifyPrettyElems (ind + 2) es ++ "\n" ++ jsonIndent ind ++ "]"
  | .jsObj fs =>
    match fs.filter (fun f => !jsIsUndef f.2) with
    | [] => "{}"
    | _ => "\x7b\n" ++ stringifyPrettyFields (ind + 2) fs true ++ "\n" ++ jsonIndent ind ++ "\x7d"

/-- Elements of a pretty-printed array, one per line. -/
def stringifyPrettyElems (ind : Nat) : List JSValue → String
  | [] => ""
  | [v] => jsonIndent ind ++ stringifyPretty ind v
  | v :: rest => jsonIndent ind ++ stringifyPretty ind v ++ ",\n" ++ stringifyPrettyElems ind rest

/-- Fields of a pretty-printed object, one per line, `undefined` fields
skipped. -/
def stringifyPrettyFields (ind : Nat) : List (String × JSValue) → Bool → String
  | [], _ => ""
  | (k, v) :: rest, isFirst =>
    match v with
    | .undef => stringifyPrettyFields ind rest isFirst
    | .jsNull =>
      (cond isFirst "" ",\n") ++ jsonIndent ind ++ quoteJsonString k ++ ": " ++ "null"
        ++ stringifyPrettyFields ind rest false
    | v =>
      (cond isFirst "" ",\n") ++ jsonIndent ind ++ quoteJsonString k ++ ": " ++ stringifyPretty ind v
        ++ stringifyPrettyFields ind rest false

end

/-- JSON whitespace characters. -/
def isJsonWs (c : Char) : Bool :=
  c = ' ' || c = '\t' || c = '\n' || c = '\r'

/-- Drop leading JSON whitespace. -/
def skipWs : List Char → List Char
  | [] => []
  | c :: cs => if isJsonWs c then skipWs cs else c :: cs

/-- Hexadecimal digit test for `\uXXXX` escapes. -/
def isHexDigitChar (c : Char) : Bool :=
  c.isDigit || ('a' ≤ c && c ≤ 'f') || ('A' ≤ c && c ≤ 'F')

/-- Scan the remainder of a JSON string literal, the opening quote already
consumed; returns the input after the closing quote. -/
def jsonStringRest : List Char → Option (List Char)
  | [] => none
  | c :: cs =>
    if c = '"' then some cs
    else if c = '\\' then
      match cs with
      | [] => none
      | e :: cs2 =>
        if e = '"' || e = '\\' || e = '/' || e = 'b' || e = 'f' || e = 'n' || e = 'r' || e = 't' then
          jsonStringRest cs2
        else if e = 'u' then
          match cs2 with
          | h1 :: h2 :: h3 :: h4 :: cs3 =>
            if isHexDigitChar h1 && isHexDigitChar h2 && isHexDigitChar h3 && isHexDigitChar h4 then
              jsonStringRest cs3
            else none
          | _ => none
        else none
    else if c.val.toNat < 32 then none
    else jsonStringRest cs

/-- Consume leading decimal digits, returning how many were consumed and the
rest of the input. -/
def takeDigits : List Char → Nat × List Char
  | [] => (0, [])
  | c :: cs =>
    if c.isDigit then
      let (n, r) := takeDigits cs
      (n + 1, r)
    else (0, c :: cs)

/-- Scan the fraction and exponent portion of a JSON number. -/
def jsonNumberFrac (cs : List Char) : Option (List Char) :=
  let fracDone : Option (List Char) :=
    match cs with
    | '.' :: r =>
      match takeDigits r with
      | (0, _) => none
      | (_, r2) => some r2
    | _ => some cs
  match fracDone with
  | none => none
  | some cs2 =>
    match cs2 with
    | e :: r =>
      if e = 'e' || e = 'E' then
        let r1 := match r with
          | '+' :: rr => rr
          | '-' :: rr => rr
          | _ => r
        match takeDigits r1 with
        | (0, _) => none
        | (_, r2) => some r2
      else some cs2
    | [] => some cs2

/-- Scan a JSON number (optional minus, integer part, fraction, exponent). -/
def jsonNumber (cs : List Char) : Option (List Char) :=
  let cs1 := match cs with
    | '-' :: r => r
    | _ => cs
  match cs1 with
  | [] => none
  | c :: r =>
    if c = '0' then jsonNumberFrac r
    else if c.isDigit then
      let (_, r2) := takeDigits r
      jsonNumberFrac r2
    else none

mutual

/-- Fuelled scanner for one JSON value; returns the unconsumed input.  The
fuel only bounds nesting and list length and is chosen large enough at the
call site in `isParsableJson`. -/
def jsonValue : Nat → List Char → Option (List Char)
  | 0, _ => none
  | fuel + 1, cs =>
    match skipWs cs with
    | '{' :: r => jsonObjBody fuel (skipWs r)
    | '[' :: r => jsonArrBody fuel (skipWs r)
    | '"' :: r => jsonStringRest r
    | 't' :: 'r' :: 'u' :: 'e' :: r => some r
    | 'f' :: 'a' :: 'l' :: 's' :: 'e' :: r => some r
    | 'n' :: 'u' :: 'l' :: 'l' :: r => some r
    | cs2 => jsonNumber cs2

/-- Object body right after the opening brace (whitespace already skipped). -/
def jsonObjBody : Nat → List Char → Option (List Char)
  | 0, _ => none
  | fuel + 1, cs =>
    match cs with
    | '}' :: r => some r
    | '"' :: r =>
      match jsonStringRest r with
      | none => none
      | some r2 =>
        match skipWs r2 with
        | ':' :: r3 =>
          match jsonValue fuel r3 with
          | none => none
          | some r4 => jsonObjTail fuel (skipWs r4)
        | _ => none
    | _ => none

/-- Object members after the first one: a comma and a member, or the closing
brace. -/
def jsonObjTail : Nat → List Char → Option (List Char)
  | 0, _ => none
  | fuel + 1, cs =>
    match cs with
    | '}' :: r => some r
    | ',' :: r =>
      match skipWs r with
      | '"' :: r2 =>
        match jsonStringRest r2 with
        | none => none
        | some r3 =>
          match skipWs r3 with
          | ':' :: r4 =>
            match jsonValue fuel r4 with
            | none => none
            | some r5 => jsonObjTail fuel (skipWs r5)
          | _ => none
      | _ => none
    | _ => none

/-- Array body right after the opening bracket (whitespace already skipped). -/
def jsonArrBody : Nat → List Char → Option (List Char)
  | 0, _ => none
  | fuel + 1, cs =>
    match cs with
    | ']' :: r => some r
    | _ =>
      match jsonValue fuel cs with
      | none => none
      | some r => jsonArrTail fuel (skipWs r)

/-- Array elements after the first one: a comma and an element, or the
closing bracket. -/
def jsonArrTail : Nat → List Char → Option (List Char)
  | 0, _ => none
  | fuel + 1, cs =>
    match cs with
    | ']' :: r => some r
    | ',' :: r =>
      match jsonValue fuel r with
      | none => none
      | some r2 => jsonArrTail fuel (skipWs r2)
    | _ => none

end

/-- Model of the source's `isParsableJson`: false on the empty or blank
string (the source's `!str || str.trim() === ''` guard), otherwise whether
`JSON.parse` would accept the whole string.  The blank check is performed on
the character list so that it evaluates by kernel reduction. -/
def isParsableJson (str : String) : Bool :=
  if str.data.isEmpty || str.data.all isJsonWs then false
  else
    match jsonValue (2 * str.data.length + 8) str.data with
    | some rest => (skipWs rest).isEmpty
    | none => false

/-! Data model: upstream SDK messages, the AI-SDK prompt, and the output
stream parts, translated from the TypeScript type declarations used by
`claude-code-provider.ts`. -/

/-- One part of a multi-part prompt message: a text part or any other part
kind (image and the like), which the flattener drops. -/
inductive PromptPart where
  | text (text : String)
  | other
deriving Repr, DecidableEq

/-- The content of a prompt message: a plain string or a part sequence. -/
inductive PromptContent where
  | str (s : String)
  | parts (ps : List PromptPart)
deriving Repr, DecidableEq

/-- One role-tagged message of the AI-SDK prompt. -/
structure PromptMessage where
  role : String
  content : PromptContent
deriving Repr, DecidableEq

/-- A tool catalog entry (the source's `ToolDefinition`). -/
structure ToolDefinition where
  name : String
  description : String
  parameters : JSValue
deriving Repr

/-- The source's `BetaToolUseBlock`: a complete tool invocation inside an
assistant message.  `input` is `undef` when the JavaScript field is absent
(the source guards with `toolUse.input || {}`). -/
structure ToolUseBlock where
  id : String
  name : String
  input : JSValue
deriving Repr

/-- One content block of a complete assistant message. -/
inductive AssistantBlock where
  | text (text : String)
  | tool_use (block : ToolUseBlock)
  | other
deriving Repr

/-- One content block of a complete user message.  `tool_result` carries the
referenced tool id, the content value and the optional error flag; `other`
covers every other block shape (including non-object entries, which the
source's `typeof block === 'object'` test filters out). -/
inductive UserBlock where
  | tool_result (tool_use_id : String) (content : JSValue) (is_error : Option Bool)
  | other
deriving Repr

/-- The content of a complete user message: a plain string or a block list
(the source only iterates it when `Array.isArray` holds). -/
inductive UserContent where
  | str (s : String)
  | blocks (bs : List UserBlock)
deriving Repr

/-- The nested content block description of a `content_block_start`
sub-event. -/
inductive ContentBlockInfo where
  | text
  | tool_use (id : String) (name : String)
  | other
deriving Repr

/-- The delta payload of a `content_block_delta` sub-event. -/
inductive DeltaInfo where
  | text_delta (text : String)
  | thinking_delta (thinking : String)
  | input_json_delta (partial_json : String)
  | other
deriving Repr

/-- A streaming sub-event (the source's `event` inside a `stream_event`
message).  `index` and the nested payload are optional, mirroring the
optional-chaining accesses in the source. -/
inductive StreamSubEvent where
  | content_block_start (index : Option Nat) (content_block : Option ContentBlockInfo)
  | content_block_delta (index : Option Nat) (delta : Option DeltaInfo)
  | content_block_stop (index : Option Nat)
  | other
deriving Repr

/-- Usage counters of a result message. -/
structure SDKUsage where
  input_tokens : Nat
  output_tokens : Nat
deriving Repr

/-- One permission-denial record of a result message. -/
structure PermissionDenial where
  tool_name : String
  tool_use_id : String
  tool_input : JSValue
deriving Repr

/-- The terminal `result` message.  `result` is the result text, empty when
absent (the source tests it for truthiness only). -/
structure SDKResultMessage where
  subtype : String
  result : String
  usage : SDKUsage
  permission_denials : List PermissionDenial
deriving Repr

/-- An upstream SDK message as the provider discriminates it by `type`. -/
inductive SDKMessage where
  | stream_event (event : StreamSubEvent)
  | assistant (content : Option (List AssistantBlock))
  | user (content : UserContent)
  | result (r : SDKResultMessage)
  | system
deriving Repr

/-- How the upstream generator ends when no `result` message stops the loop
first: it is exhausted normally, or it throws an error (modelled by the
string the loop's `catch` receives). -/
inductive Tail where
  | exhausted
  | thrown (e : String)
deriving Repr, DecidableEq

/-- Usage as reported downstream. -/
structure OutUsage where
  inputTokens : Nat
  outputTokens : Nat
  totalTokens : Nat
deriving Repr, DecidableEq

/-- One output stream part (the source's `LanguageModelV2StreamPart` as far
as the provider instantiates it).  Reasoning parts carry the
provider-metadata fields the source attaches (`itemId` and `eventType`);
`stream_start` is emitted with the warnings array as it stands at start
time, which is always empty. -/
inductive StreamPart where
  | stream_start
  | text_start (id : String)
  | text_delta (id : String) (delta : String)
  | text_end (id : String)
  | reasoning_start (id : String) (itemId : String) (eventType : String)
  | reasoning_delta (id : String) (delta : String) (itemId : String) (eventType : String)
  | reasoning_end (id : String) (itemId : String) (eventType : String)
  | tool_input_start (id : String) (toolName : String)
  | tool_input_delta (id : String) (delta : String)
  | tool_input_end (id : String)
  | tool_call (toolCallId : String) (toolName : String) (input : String)
  | tool_result (toolCallId : String) (toolName : String) (isError : Bool) (result : String)
  | finish (finishReason : String) (usage : OutUsage)
  | error (e : String)
deriving Repr, DecidableEq

/-- An entry of the streaming translator's tool correlation table (the
source's `OngoingToolCall`). -/
structure OngoingToolCall where
  id : String
  name : String
  arguments : String
  hasFinished : Bool
deriving Repr, DecidableEq

/-- Look up a key in an association list modelling a JavaScript `Map`. -/
def getEntry {α : Type} : List (Nat × α) → Nat → Option α
  | [], _ => none
  | (k, v) :: rest, i => if k = i then some v else getEntry rest i

/-- JavaScript `Map.set`: replace the entry in place when the key exists,
append it otherwise. -/
def setEntry {α : Type} : List (Nat × α) → Nat → α → List (Nat × α)
  | [], i, v => [(i, v)]
  | (k, w) :: rest, i, v => if k = i then (i, v) :: rest else (k, w) :: setEntry rest i v

/-- The streaming translator's per-session mutable state: the two open-block
flags, the index-to-id map and the tool correlation table. -/
structure StreamState where
  hasStartedTextBlock : Bool
  hasStartedThinkingBlock : Bool
  toolBlockIds : List (Nat × String)
  toolCalls : List (Nat × OngoingToolCall)
deriving Repr

/-- The state at session start. -/
def initialStreamState : StreamState :=
  { hasStartedTextBlock := false
    hasStartedThinkingBlock := false
    toolBlockIds := []
    toolCalls := [] }

/-- The fixed id of the session's single logical text block. -/
def textBlockId : String := "0"

/-- The fixed id of the session's single logical reasoning block
(the source's template string around `textBlockId`). -/
def thinkingBlockId : String := "thinking-" ++ textBlockId

/-! Shared mappers: finish reason, warnings, prompt flattening. -/

/-- JavaScript `Array.prototype.join(sep)` on a list of strings. -/
def joinStrings (sep : String) : List String → String
  | [] => ""
  | [x] => x
  | x :: rest => x ++ sep ++ joinStrings sep rest

/-- The source's `mapFinishReason`, keyed on the result message's subtype. -/
def mapFinishReason (r : SDKResultMessage) : String :=
  if r.subtype = "error_max_turns" then "length"
  else if r.subtype = "error_during_execution" then "error"
  else "stop"

/-- A downstream call warning; the source always builds warnings with
`type: 'other'`, recorded here in the `wtype` field (`type` is a Lean
keyword). -/
structure CallWarning where
  wtype : String
  message : String
deriving Repr, DecidableEq

/-- The source's `extractWarnings`: one warning naming every denied tool
when the permission-denial list is non-empty. -/
def extractWarnings (r : SDKResultMessage) : List CallWarning :=
  if r.permission_denials.length > 0 then
    [⟨"other",
      "Permission denied for tools: "
        ++ joinStrings ", " (r.permission_denials.map PermissionDenial.tool_name)⟩]
  else []

/-- Render one prompt message as the flattener does: `role: content` for a
string, `role:` plus the space-joined text parts otherwise. -/
def renderPromptMessage (m : PromptMessage) : String :=
  match m.content with
  | .str s => m.role ++ ": " ++ s
  | .parts ps =>
    let textParts := joinStrings " "
      ((ps.filter fun p => match p with
        | .text _ => true
        | .other => false).map fun p =>
          match p with
          | .text t => t
          | .other => "")
    m.role ++ ": " ++ textParts

/-- Render one tool-catalog entry as the flattener does. -/
def renderToolDefinition (t : ToolDefinition) : String :=
  "Tool: " ++ t.name ++ "\nDescription: " ++ t.description
    ++ "\nParameters: " ++ stringifyPretty 0 t.parameters

/-- The source's `convertPromptToClaudeCodeFormat`: newline-joined rendered
messages, plus the tool-catalog section when a non-empty tool list is
supplied. -/
def convertPromptToClaudeCodeFormat (prompt : List PromptMessage)
    (tools : Option (List ToolDefinition)) : String :=
  let promptText := joinStrings "\n" (prompt.map renderPromptMessage)
  match tools with
  | some ts =>
    if ts.length > 0 then
      promptText ++ "\n\nAvailable tools:\n"
        ++ joinStrings "\n\n" (ts.map renderToolDefinition)
        ++ "\n\nUse these tools when appropriate by calling them in your response."
    else promptText
  | none => promptText

/-! The non-streaming collector, `doGenerate`. -/

/-- The relevant call options of `doGenerate` and `doStream`.  `schema`,
`mode`, `output` and `outputSchema` are the structured-output request shapes
the repository's tests exercise; the implementation destructures only
`prompt` and `tools` and reads `maxOutputTokens` from the rest. -/
structure CallOptions where
  prompt : List PromptMessage
  tools : Option (List ToolDefinition)
  maxOutputTokens : Option Nat
  schema : Option JSValue
  mode : Option String
  output : Option String
  outputSchema : Option JSValue
deriving Repr

/-- The maxTurns derivation for the upstream options:
`Math.ceil(maxOutputTokens / 100)` when `maxOutputTokens` is truthy. -/
def ccMaxTurns (o : CallOptions) : Option Nat :=
  match o.maxOutputTokens with
  | some t => if t = 0 then none else some ((t + 99) / 100)
  | none => none

/-- The upstream configuration echoed back in the `request` field, as far
as it is derived from the call (model id and maxTurns). -/
structure CCOptions where
  model : String
  maxTurns : Option Nat
deriving Repr, DecidableEq

/-- One entry of the aggregate `toolCalls` array. -/
structure ToolCallOut where
  toolCallId : String
  toolName : String
  input : String
deriving Repr, DecidableEq

/-- One entry of the aggregate `toolResults` array. -/
structure ToolResultOut where
  toolCallId : String
  toolName : String
  isError : Bool
  result : String
deriving Repr, DecidableEq

/-- The aggregate result of `doGenerate`; `content` is the list of text
blocks, each modelled by its text. -/
structure GenerateResult where
  content : List String
  finishReason : String
  usage : OutUsage
  toolCalls : List ToolCallOut
  toolResults : List ToolResultOut
  request : CCOptions
  warnings : List CallWarning
deriving Repr, DecidableEq

/-- Drive the upstream generator to the first `result` message or to
exhaustion, accumulating every message seen (the result message included,
as the source pushes it before testing its type). -/
def collectMessages : List SDKMessage → List SDKMessage × Option SDKResultMessage
  | [] => ([], none)
  | m :: rest =>
    match m with
    | .result r => ([m], some r)
    | _ =>
      let (ms, r?) := collectMessages rest
      (m :: ms, r?)

/-- The JavaScript object a `tool_result` block denotes, for
`JSON.stringify(toolResult)` in the falsy-content fallback. -/
def toolResultBlockJS (tool_use_id : String) (content : JSValue)
    (is_error : Option Bool) : JSValue :=
  .jsObj ([("type", .jsStr "tool_result"), ("tool_use_id", .jsStr tool_use_id),
    ("content", content)]
    ++ (match is_error with
        | some b => [("is_error", JSValue.jsBool b)]
        | none => []))

/-- The `toolCalls` extraction pass of `doGenerate`: one entry per
`tool_use` block of any assistant message, in order. -/
def extractToolCalls (msgs : List SDKMessage) : List ToolCallOut :=
  msgs.flatMap fun m =>
    match m with
    | .assistant content? =>
      (content?.getD []).flatMap fun b =>
        match b with
        | .tool_use tu =>
          [⟨tu.id, tu.name, stringify (if jsTruthy tu.input then tu.input else .jsObj [])⟩]
        | _ => []
    | _ => []

/-- The `toolResults` extraction pass of `doGenerate`: one entry per
`tool_result` block of any user message, in order. -/
def extractToolResults (msgs : List SDKMessage) : List ToolResultOut :=
  msgs.flatMap fun m =>
    match m with
    | .user (.blocks bs) =>
      bs.flatMap fun b =>
        match b with
        | .tool_result tuid c ie =>
          [⟨if tuid = "" then "unknown" else tuid, "unknown", ie.getD false,
            match c with
            | .jsStr s => s
            | c => stringify (if jsTruthy c then c else toolResultBlockJS tuid c ie)⟩]
        | .other => []
    | _ => []

/-- The aggregate object `doGenerate` returns once a result message was
found, assembled from the accumulated messages. -/
def buildGenerateResult (modelId : String) (opts : CallOptions)
    (msgs : List SDKMessage) (r : SDKResultMessage) : GenerateResult :=
  { content := if r.subtype = "success" ∧ r.result ≠ "" then [r.result] else []
    finishReason := mapFinishReason r
    usage := ⟨r.usage.input_tokens, r.usage.output_tokens,
      r.usage.input_tokens + r.usage.output_tokens⟩
    toolCalls := extractToolCalls msgs
    toolResults := extractToolResults msgs
    request := ⟨modelId, ccMaxTurns opts⟩
    warnings := extractWarnings r }

/-- The source's `doGenerate` over an upstream session `(msgs, tail)`: the
aggregate result, or the wrapped error message its `catch` produces.  A
missing result raises `Error('No result received from Claude Code')`, which
the surrounding catch rewraps with the `Claude Code API error:` prefix
(JavaScript renders the inner `Error` as `Error: <message>`). -/
def doGenerate (modelId : String) (opts : CallOptions) (msgs : List SDKMessage)
    (tail : Tail) : Except String GenerateResult :=
  match collectMessages msgs with
  | (collected, some r) => .ok (buildGenerateResult modelId opts collected r)
  | (_, none) =>
    match tail with
    | .exhausted => .error "Claude Code API error: Error: No result received from Claude Code"
    | .thrown e => .error ("Claude Code API error: " ++ e)

/-! The streaming translator, `doStream`. -/

/-- Process one streaming sub-event, returning the updated state and the
parts enqueued, exactly as the source's `stream_event` branch does. -/
def processStreamEvent (s : StreamState) (ev : StreamSubEvent) :
    StreamState × List StreamPart :=
  match ev with
  | .content_block_start index cb =>
    match cb with
    | some .text => ({ s with hasStartedTextBlock := true }, [.text_start textBlockId])
    | some (.tool_use id name) =>
      match index with
      | some i =>
        ({ s with toolBlockIds := setEntry s.toolBlockIds i id,
                  toolCalls := setEntry s.toolCalls i ⟨id, name, "", false⟩ },
         [.tool_input_start id name])
      | none => (s, [])
    | _ => (s, [])
  | .content_block_delta index d =>
    match d with
    | some (.text_delta t) =>
      if s.hasStartedTextBlock then (s, [.text_delta textBlockId t])
      else ({ s with hasStartedTextBlock := true },
        [.text_start textBlockId, .text_delta textBlockId t])
    | some (.thinking_delta t) =>
      if s.hasStartedThinkingBlock then
        (s, [.reasoning_delta thinkingBlockId t textBlockId "thinking_delta"])
      else
        ({ s with hasStartedThinkingBlock := true },
         [.reasoning_start thinkingBlockId textBlockId "thinking_start",
          .reasoning_delta thinkingBlockId t textBlockId "thinking_delta"])
    | some (.input_json_delta pj) =>
      match index with
      | some i =>
        if pj = "" then (s, [])
        else
          match getEntry s.toolCalls i with
          | some tc =>
            if tc.hasFinished then (s, [])
            else
              let args := tc.arguments ++ pj
              if isParsableJson args then
                ({ s with toolCalls := setEntry s.toolCalls i ⟨tc.id, tc.name, args, true⟩ },
                 [.tool_input_delta tc.id pj, .tool_input_end tc.id,
                  .tool_call tc.id tc.name args])
              else
                ({ s with toolCalls := setEntry s.toolCalls i ⟨tc.id, tc.name, args, false⟩ },
                 [.tool_input_delta tc.id pj])
          | none => (s, [])
      | none => (s, [])
    | _ => (s, [])
  | .content_block_stop index =>
    let s1 := { s with hasStartedTextBlock := false }
    let p1 := if s.hasStartedTextBlock then [StreamPart.text_end textBlockId] else []
    match index with
    | some i =>
      match getEntry s.toolCalls i with
      | some tc =>
        if tc.hasFinished then (s1, p1)
        else if isParsableJson tc.arguments then
          ({ s1 with toolCalls := setEntry s.toolCalls i ⟨tc.id, tc.name, tc.arguments, true⟩ },
           p1 ++ [.tool_input_end tc.id, .tool_call tc.id tc.name tc.arguments])
        else (s1, p1 ++ [.tool_input_end tc.id])
      | none => (s1, p1)
    | none => (s1, p1)
  | .other => (s, [])

/-- Process a complete assistant message: the fallback `tool-call` emission
for every `tool_use` block whose id has no finished correlation-table
entry.  The state is not modified. -/
def processAssistant (s : StreamState) (content? : Option (List AssistantBlock)) :
    List StreamPart :=
  match content? with
  | none => []
  | some blocks =>
    blocks.flatMap fun b =>
      match b with
      | .tool_use tu =>
        let alreadyHandled := s.toolCalls.any fun e => decide (e.2.id = tu.id) && e.2.hasFinished
        if alreadyHandled then []
        else [.tool_call tu.id tu.name (stringify (if jsTruthy tu.input then tu.input else .jsObj []))]
      | _ => []

/-- Process a complete user message: one `tool-result` part per
`tool_result` block, the content normalized to a string. -/
def processUser (content : UserContent) : List StreamPart :=
  match content with
  | .str _ => []
  | .blocks bs =>
    bs.flatMap fun b =>
      match b with
      | .tool_result tuid c ie =>
        let resultContent : String :=
          match c with
          | .jsStr str => str
          | c => if jsNonNull c then stringify c else ""
        [.tool_result tuid "unknown" (ie.getD false) resultContent]
      | .other => []

/-- Process the terminal result message: close any open text and reasoning
block, then emit `finish` with the mapped finish reason and usage. -/
def processResult (s : StreamState) (r : SDKResultMessage) :
    StreamState × List StreamPart :=
  let u : OutUsage := ⟨r.usage.input_tokens, r.usage.output_tokens,
    r.usage.input_tokens + r.usage.output_tokens⟩
  ({ s with hasStartedTextBlock := false, hasStartedThinkingBlock := false },
   (if s.hasStartedTextBlock then [StreamPart.text_end textBlockId] else [])
     ++ (if s.hasStartedThinkingBlock then
          [StreamPart.reasoning_end thinkingBlockId textBlockId "thinking_end"]
        else [])
     ++ [.finish (mapFinishReason r) u])

/-- Process one upstream message; the boolean is true when the message was a
result, after which the loop breaks. -/
def processMessage (s : StreamState) (m : SDKMessage) :
    StreamState × List StreamPart × Bool :=
  match m with
  | .stream_event ev =>
    match processStreamEvent s ev with
    | (s', out) => (s', out, false)
  | .assistant c => (s, processAssistant s c, false)
  | .user c => (s, processUser c, false)
  | .result r =>
    match processResult s r with
    | (s', out) => (s', out, true)
  | .system => (s, [], false)

/-- Run the streaming loop over the upstream messages from a given state,
stopping at the first result message. -/
def runMessages (s : StreamState) : List SDKMessage → StreamState × List StreamPart × Bool
  | [] => (s, [], false)
  | m :: rest =>
    match processMessage s m with
    | (s', out, true) => (s', out, true)
    | (s', out, false) =>
      match runMessages s' rest with
      | (s'', out', stopped) => (s'', out ++ out', stopped)

/-- The catch path of the streaming loop: close any open text and reasoning
block best-effort, then emit the terminal `error` part. -/
def closeOpenBlocksOnError (s : StreamState) (e : String) : List StreamPart :=
  (if s.hasStartedTextBlock then [StreamPart.text_end textBlockId] else [])
    ++ (if s.hasStartedThinkingBlock then
          [StreamPart.reasoning_end thinkingBlockId textBlockId "thinking_end_error"]
        else [])
    ++ [.error e]

/-- The output part sequence of the source's `doStream` over an upstream
session: `stream-start` first, then the parts of the loop; when the loop
ends without a result, an exhausted generator just closes the stream while
a thrown error runs the catch path. -/
def doStream (msgs : List SDKMessage) (tail : Tail) : List StreamPart :=
  match runMessages initialStreamState msgs with
  | (s, out, stopped) =>
    StreamPart.stream_start ::
      (out ++
        (if stopped then []
         else
           match tail with
           | .exhausted => []
           | .thrown e => closeOpenBlocksOnError s e))

/-- The value `doStream` returns to its caller: the stream plus the echoed
request configuration.  The call options beyond `prompt`, `tools` and
`maxOutputTokens` — in particular any structured-output request shape —
are ignored by the implementation and do not influence the stream. -/
structure StreamCallResult where
  request : CCOptions
  stream : List StreamPart
deriving Repr, DecidableEq

/-- The source's `doStream` call shape: builds the upstream configuration
from the options and returns the translated stream. -/
def doStreamCall (modelId : String) (opts : CallOptions) (msgs : List SDKMessage)
    (tail : Tail) : StreamCallResult :=
  { request := ⟨modelId, ccMaxTurns opts⟩
    stream := doStream msgs tail }

/-! Observation functions on the output stream and replayed session
predicates, used to state the claims. -/

/-- Whether the part is a `text-start`. -/
def isTextStartPart : StreamPart → Bool
  | .text_start _ => true
  | _ => false

/-- Whether the part is a `text-end`. -/
def isTextEndPart : StreamPart → Bool
  | .text_end _ => true
  | _ => false

/-- Whether the part is a `reasoning-start`. -/
def isReasoningStartPart : StreamPart → Bool
  | .reasoning_start _ _ _ => true
  | _ => false

/-- Whether the part is a `reasoning-end`. -/
def isReasoningEndPart : StreamPart → Bool
  | .reasoning_end _ _ _ => true
  | _ => false

/-- Whether the part is a `tool-input-start` for the given tool id. -/
def isToolInputStartPart (t : String) : StreamPart → Bool
  | .tool_input_start id _ => decide (id = t)
  | _ => false

/-- Whether the part is a `tool-input-end` for the given tool id. -/
def isToolInputEndPart (t : String) : StreamPart → Bool
  | .tool_input_end id => decide (id = t)
  | _ => false

/-- Bracket scan for one block kind: `opened` says whether a block is
currently open; the scan fails (`none`) on a start while open or an end
while closed, and otherwise returns whether a block is open at the end. -/
def scanBlocks (isStart isEnd : StreamPart → Bool) : List StreamPart → Bool → Option Bool
  | [], opened => some opened
  | p :: ps, opened =>
    if isStart p then
      if opened then none else scanBlocks isStart isEnd ps true
    else if isEnd p then
      if opened then scanBlocks isStart isEnd ps false else none
    else scanBlocks isStart isEnd ps opened

/-- A part list is properly closed for a block kind when starts and ends
alternate, beginning with a start, and no block is left open at the end:
every emitted start is matched by exactly one later end. -/
def properlyClosed (isStart isEnd : StreamPart → Bool) (ps : List StreamPart) : Bool :=
  decide (scanBlocks isStart isEnd ps false = some false)

/-- The number of `tool-call` parts carrying the given tool id. -/
def countToolCallsFor (t : String) (ps : List StreamPart) : Nat :=
  (ps.filter fun p =>
    match p with
    | .tool_call id _ _ => decide (id = t)
    | _ => false).length

/-- The number of `content_block_start` sub-events that introduce the given
tool id at some index (only those with a defined index create a
correlation-table entry). -/
def startsWithId (t : String) (msgs : List SDKMessage) : Nat :=
  (msgs.filter fun m =>
    match m with
    | .stream_event (.content_block_start (some _) (some (.tool_use id _))) => decide (id = t)
    | _ => false).length

/-- Whether the session contains a result message. -/
def containsResult : List SDKMessage → Bool
  | [] => false
  | .result _ :: _ => true
  | _ :: rest => containsResult rest

/-- Whether the correlation table holds a finished entry with the given tool
id (the fallback path's de-duplication test). -/
def finishedEntryFor (t : String) (s : StreamState) : Bool :=
  s.toolCalls.any fun e => decide (e.2.id = t) && e.2.hasFinished

/-- The number of unfinished correlation-table entries with the given tool
id. -/
def pendingEntriesFor (t : String) (s : StreamState) : Nat :=
  (s.toolCalls.filter fun e => decide (e.2.id = t) && !e.2.hasFinished).length

/-- Whether an assistant message's content mentions the given tool id in a
`tool_use` block. -/
def assistantMentions (t : String) (c : Option (List AssistantBlock)) : Bool :=
  (c.getD []).any fun b =>
    match b with
    | .tool_use tu => decide (tu.id = t)
    | _ => false

/-- Whether processing this message from this state keeps the fallback path
silent for tool id `t`: an assistant message mentioning `t` must find a
finished correlation-table entry for `t`. -/
def assistantGuardOK (t : String) (s : StreamState) (m : SDKMessage) : Bool :=
  match m with
  | .assistant c => !assistantMentions t c || finishedEntryFor t s
  | _ => true

/-- Replay of the streaming loop checking that every assistant message
mentioning tool id `t` is processed only when the correlation table already
holds a finished entry for `t` (messages after the first result are not
processed and are not constrained). -/
def assistantAfterFinished (t : String) : StreamState → List SDKMessage → Bool
  | _, [] => true
  | s, m :: rest =>
    assistantGuardOK t s m &&
    (match processMessage s m with
     | (_, _, true) => true
     | (s', _, false) => assistantAfterFinished t s' rest)

/-- Whether processing this message from this state avoids a redundant
`content_block_start` for text while the text block is already open (the
one situation in which the source emits a duplicate `text-start`). -/
def textStartGuardOK (s : StreamState) (m : SDKMessage) : Bool :=
  match m with
  | .stream_event (.content_block_start _ (some .text)) => !s.hasStartedTextBlock
  | _ => true

/-- Replay of the streaming loop checking that the upstream never emits a
`content_block_start` for a text block while the text block is already
open. -/
def noDupTextStartFrom : StreamState → List SDKMessage → Bool
  | _, [] => true
  | s, m :: rest =>
    textStartGuardOK s m &&
    (match processMessage s m with
     | (_, _, true) => true
     | (s', _, false) => noDupTextStartFrom s' rest)

/-- Keep the first occurrence of every string, in first-seen order (used to
state the claimed de-duplication of denied tool names). -/
def firstSeenAux (seen : List String) : List String → List String
  | [] => []
  | x :: rest =>
    if x ∈ seen then firstSeenAux seen rest
    else x :: firstSeenAux (x :: seen) rest

/-- The distinct elements of a string list in order of first appearance. -/
def firstSeen (l : List String) : List String := firstSeenAux [] l

/-! Spec-side rendering of the prompt flattener (claim C9), written from the
specification's wording: each turn renders as role, colon and body, the body
of a part sequence being the text of its text parts joined by single spaces;
turns join with newlines; a non-empty tool catalog appends a trailing
section and instruction sentence. -/

/-- The texts of the text-typed parts, non-text parts dropped (spec
wording). -/
def specTextsOfParts : List PromptPart → List String
  | [] => []
  | .text t :: rest => t :: specTextsOfParts rest
  | .other :: rest => specTextsOfParts rest

/-- Spec-side rendering of one turn. -/
def specRenderTurn (m : PromptMessage) : String :=
  match m.content with
  | .str s => m.role ++ ": " ++ s
  | .parts ps => m.role ++ ": " ++ joinStrings " " (specTextsOfParts ps)

/-- Spec-side newline join of the rendered turns. -/
def specRenderTurns : List PromptMessage → String
  | [] => ""
  | [m] => specRenderTurn m
  | m :: rest => specRenderTurn m ++ "\n" ++ specRenderTurns rest

/-- Spec-side tool catalog section: every tool's name, description and
serialized parameter schema, with the closing instruction sentence. -/
def specToolSection (ts : List ToolDefinition) : String :=
  "\n\nAvailable tools:\n"
    ++ joinStrings "\n\n" (ts.map fun t =>
        "Tool: " ++ t.name ++ "\nDescription: " ++ t.description
          ++ "\nParameters: " ++ stringifyPretty 0 t.parameters)
    ++ "\n\nUse these tools when appropriate by calling them in your response."

/-- Spec-side flattener: rendered turns plus the tool section when a
non-empty tool catalog is supplied. -/
def specFlatten (prompt : List PromptMessage) (tools : Option (List ToolDefinition)) : String :=
  match tools with
  | some [] => specRenderTurns prompt
  | some ts => specRenderTurns prompt ++ specToolSection ts
  | none => specRenderTurns prompt

/-! Supporting lemmas for the claim theorems: properties of the collector,
the stream scan, and the tool-call count. -/

theorem flatten_body_eq (ps : List PromptPart) :
    ((ps.filter fun p => match p with
      | .text _ => true
      | .other => false).map fun p =>
        match p with
        | .text t => t
        | .other => "") = specTextsOfParts ps := by
  induction ps with
  | nil => rfl
  | cons p rest ih =>
    cases p <;> simp [specTextsOfParts, List.filter, ih]

theorem render_turn_eq (m : PromptMessage) : renderPromptMessage m = specRenderTurn m := by
  cases m with
  | mk role content =>
    cases content with
    | str s => rfl
    | parts ps => simp [renderPromptMessage, specRenderTurn, flatten_body_eq]

theorem render_turns_eq (l : List PromptMessage) :
    joinStrings "\n" (l.map renderPromptMessage) = specRenderTurns l := by
  induction l with
  | nil => rfl
  | cons m rest ih =>
    cases rest with
    | nil => simp [joinStrings, specRenderTurns, render_turn_eq]
    | cons m' rest' =>
      simp only [List.map, joinStrings, specRenderTurns] at ih ⊢
      rw [render_turn_eq]
      rw [← ih]

theorem collectMessages_snd_none (msgs : List SDKMessage) (h : containsResult msgs = false) :
    (collectMessages msgs).2 = none := by
  induction msgs with
  | nil => rfl
  | cons m rest ih =>
    cases m with
    | result r => simp [containsResult] at h
    | stream_event ev => simp [containsResult] at h; simp [collectMessages, ih h]
    | assistant c => simp [containsResult] at h; simp [collectMessages, ih h]
    | user c => simp [containsResult] at h; simp [collectMessages, ih h]
    | system => simp [containsResult] at h; simp [collectMessages, ih h]

theorem collectMessages_append (msgs extra : List SDKMessage) (h : containsResult msgs = true) :
    collectMessages (msgs ++ extra) = collectMessages msgs := by
  induction msgs with
  | nil => simp [containsResult] at h
  | cons m rest ih =>
    cases m with
    | result r => simp [collectMessages]
    | stream_event ev => simp [containsResult] at h; simp [collectMessages, ih h]
    | assistant c => simp [containsResult] at h; simp [collectMessages, ih h]
    | user c => simp [containsResult] at h; simp [collectMessages, ih h]
    | system => simp [containsResult] at h; simp [collectMessages, ih h]

theorem collectMessages_isSome (msgs : List SDKMessage) (h : containsResult msgs = true) :
    (collectMessages msgs).2.isSome = true := by
  induction msgs with
  | nil => simp [containsResult] at h
  | cons m rest ih =>
    cases m with
    | result r => simp [collectMessages]
    | stream_event ev => simp [containsResult] at h; simp [collectMessages, ih h]
    | assistant c => simp [containsResult] at h; simp [collectMessages, ih h]
    | user c => simp [containsResult] at h; simp [collectMessages, ih h]
    | system => simp [containsResult] at h; simp [collectMessages, ih h]

theorem no_finish_pse (s : StreamState) (ev : StreamSubEvent) (fr : String) (u : OutUsage) :
    StreamPart.finish fr u ∉ (processStreamEvent s ev).2 := by
  unfold processStreamEvent
  repeat' split
  all_goals (try simp)
  all_goals (split <;> simp)

theorem no_finish_assistant (s : StreamState) (c : Option (List AssistantBlock))
    (fr : String) (u : OutUsage) : StreamPart.finish fr u ∉ processAssistant s c := by
  unfold processAssistant
  split
  · simp
  · intro hmem
    simp [List.mem_flatMap] at hmem
    obtain ⟨b, _, hb⟩ := hmem
    revert hb
    repeat' split
    all_goals simp

theorem no_finish_user (c : UserContent) (fr : String) (u : OutUsage) :
    StreamPart.finish fr u ∉ processUser c := by
  unfold processUser
  split
  · simp
  · intro hmem
    simp [List.mem_flatMap] at hmem
    obtain ⟨b, _, hb⟩ := hmem
    revert hb
    repeat' split
    all_goals simp

theorem finish_processResult (s : StreamState) (r : SDKResultMessage) (fr : String) (u : OutUsage)
    (h : StreamPart.finish fr u ∈ (processResult s r).2) :
    u.totalTokens = u.inputTokens + u.outputTokens := by
  unfold processResult at h
  by_cases ht : s.hasStartedTextBlock <;> by_cases hk : s.hasStartedThinkingBlock <;>
    simp [ht, hk] at h <;> rw [h.2]

theorem finish_processMessage (s : StreamState) (m : SDKMessage) (fr : String) (u : OutUsage)
    (h : StreamPart.finish fr u ∈ (processMessage s m).2.1) :
    u.totalTokens = u.inputTokens + u.outputTokens := by
  cases m with
  | stream_event ev =>
    exact absurd (by simpa [processMessage] using h) (no_finish_pse s ev fr u)
  | assistant c =>
    exact absurd (by simpa [processMessage] using h) (no_finish_assistant s c fr u)
  | user c =>
    exact absurd (by simpa [processMessage] using h) (no_finish_user c fr u)
  | result r =>
    exact finish_processResult s r fr u (by simpa [processMessage] using h)
  | system => simp [processMessage] at h

theorem finish_runMessages (s : StreamState) (msgs : List SDKMessage) (fr : String) (u : OutUsage)
    (h : StreamPart.finish fr u ∈ (runMessages s msgs).2.1) :
    u.totalTokens = u.inputTokens + u.outputTokens := by
  induction msgs generalizing s with
  | nil => simp [runMessages] at h
  | cons m rest ih =>
    rw [runMessages] at h
    rcases hp : processMessage s m with ⟨s', out, stopped⟩
    rw [hp] at h
    cases stopped with
    | true =>
      simp at h
      exact finish_processMessage s m fr u (by rw [hp]; exact h)
    | false =>
      simp at h
      rcases h with h | h
      · exact finish_processMessage s m fr u (by rw [hp]; exact h)
      · exact ih s' h

theorem scanBlocks_append (isStart isEnd : StreamPart → Bool) (a b : List StreamPart)
    (opened : Bool) :
    scanBlocks isStart isEnd (a ++ b) opened =
      (scanBlocks isStart isEnd a opened).bind (scanBlocks isStart isEnd b) := by
  induction a generalizing opened with
  | nil => simp [scanBlocks]
  | cons p ps ih =>
    by_cases hs : isStart p = true
    · by_cases ho : opened = true <;> simp [scanBlocks, hs, ho, ih]
    · by_cases he : isEnd p = true
      · by_cases ho : opened = true <;>
          simp [scanBlocks, hs, he, ho, ih]
      · simp [scanBlocks, hs, he, ih]

theorem text_scan_pse (s : StreamState) (ev : StreamSubEvent)
    (hnd : textStartGuardOK s (.stream_event ev) = true) :
    scanBlocks isTextStartPart isTextEndPart (processStreamEvent s ev).2 s.hasStartedTextBlock
      = some (processStreamEvent s ev).1.hasStartedTextBlock := by
  cases ev with
  | content_block_start i cb =>
    cases cb with
    | none => simp [processStreamEvent, scanBlocks]
    | some c =>
      cases c with
      | text =>
        simp [textStartGuardOK] at hnd
        simp [processStreamEvent, scanBlocks, isTextStartPart, isTextEndPart, hnd]
      | tool_use id name =>
        cases i <;>
          simp [processStreamEvent, scanBlocks, isTextStartPart, isTextEndPart]
      | other => simp [processStreamEvent, scanBlocks]
  | content_block_delta i d =>
    cases d with
    | none => simp [processStreamEvent, scanBlocks]
    | some c =>
      cases c with
      | text_delta t =>
        by_cases h : s.hasStartedTextBlock <;>
          simp [processStreamEvent, scanBlocks, isTextStartPart, isTextEndPart, h]
      | thinking_delta t =>
        by_cases h : s.hasStartedThinkingBlock <;>
          simp [processStreamEvent, scanBlocks, isTextStartPart, isTextEndPart, h]
      | input_json_delta pj =>
        cases i with
        | none => simp [processStreamEvent, scanBlocks]
        | some idx =>
          by_cases hpj : pj = ""
          · simp [processStreamEvent, scanBlocks, hpj]
          · cases hg : getEntry s.toolCalls idx with
            | none => simp [processStreamEvent, scanBlocks, hpj, hg]
            | some tc =>
              by_cases hf : tc.hasFinished
              · simp [processStreamEvent, scanBlocks, hpj, hg, hf]
              · by_cases hp : isParsableJson (tc.arguments ++ pj) <;>
                  simp [processStreamEvent, scanBlocks, isTextStartPart, isTextEndPart,
                    hpj, hg, hf, hp]
      | other => simp [processStreamEvent, scanBlocks]
  | content_block_stop i =>
    cases i with
    | none =>
      by_cases h : s.hasStartedTextBlock <;>
        simp [processStreamEvent, scanBlocks, isTextStartPart, isTextEndPart, h]
    | some idx =>
      cases hg : getEntry s.toolCalls idx with
      | none =>
        by_cases h : s.hasStartedTextBlock <;>
          simp [processStreamEvent, scanBlocks, isTextStartPart, isTextEndPart, h, hg]
      | some tc =>
        by_cases hf : tc.hasFinished
        · by_cases h : s.hasStartedTextBlock <;>
            simp [processStreamEvent, scanBlocks, isTextStartPart, isTextEndPart, h, hg, hf]
        · by_cases hp : isParsableJson tc.arguments <;>
            by_cases h : s.hasStartedTextBlock <;>
              simp [processStreamEvent, scanBlocks, isTextStartPart, isTextEndPart,
                h, hg, hf, hp]
  | other => simp [processStreamEvent, scanBlocks]

theorem think_scan_pse (s : StreamState) (ev : StreamSubEvent) :
    scanBlocks isReasoningStartPart isReasoningEndPart (processStreamEvent s ev).2
        s.hasStartedThinkingBlock
      = some (processStreamEvent s ev).1.hasStartedThinkingBlock := by
  cases ev with
  | content_block_start i cb =>
    cases cb with
    | none => simp [processStreamEvent, scanBlocks]
    | some c =>
      cases c with
      | text => simp [processStreamEvent, scanBlocks, isReasoningStartPart, isReasoningEndPart]
      | tool_use id name =>
        cases i <;>
          simp [processStreamEvent, scanBlocks, isReasoningStartPart, isReasoningEndPart]
      | other => simp [processStreamEvent, scanBlocks]
  | content_block_delta i d =>
    cases d with
    | none => simp [processStreamEvent, scanBlocks]
    | some c =>
      cases c with
      | text_delta t =>
        by_cases h : s.hasStartedTextBlock <;>
          simp [processStreamEvent, scanBlocks, isReasoningStartPart, isReasoningEndPart, h]
      | thinking_delta t =>
        by_cases h : s.hasStartedThinkingBlock <;>
          simp [processStreamEvent, scanBlocks, isReasoningStartPart, isReasoningEndPart, h]
      | input_json_delta pj =>
        cases i with
        | none => simp [processStreamEvent, scanBlocks]
        | some idx =>
          by_cases hpj : pj = ""
          · simp [processStreamEvent, scanBlocks, hpj]
          · cases hg : getEntry s.toolCalls idx with
            | none => simp [processStreamEvent, scanBlocks, hpj, hg]
            | some tc =>
              by_cases hf : tc.hasFinished
              · simp [processStreamEvent, scanBlocks, hpj, hg, hf]
              · by_cases hp : isParsableJson (tc.arguments ++ pj) <;>
                  simp [processStreamEvent, scanBlocks, isReasoningStartPart, isReasoningEndPart,
                    hpj, hg, hf, hp]
      | other => simp [processStreamEvent, scanBlocks]
  | content_block_stop i =>
    cases i with
    | none =>
      by_cases h : s.hasStartedTextBlock <;>
        simp [processStreamEvent, scanBlocks, isReasoningStartPart, isReasoningEndPart, h]
    | some idx =>
      cases hg : getEntry s.toolCalls idx with
      | none =>
        by_cases h : s.hasStartedTextBlock <;>
          simp [processStreamEvent, scanBlocks, isReasoningStartPart, isReasoningEndPart, h, hg]
      | some tc =>
        by_cases hf : tc.hasFinished
        · by_cases h : s.hasStartedTextBlock <;>
            simp [processStreamEvent, scanBlocks, isReasoningStartPart, isReasoningEndPart,
              h, hg, hf]
        · by_cases hp : isParsableJson tc.arguments <;>
            by_cases h : s.hasStartedTextBlock <;>
              simp [processStreamEvent, scanBlocks, isReasoningStartPart, isReasoningEndPart,
                h, hg, hf, hp]
  | other => simp [processStreamEvent, scanBlocks]

theorem processAssistant_parts (s : StreamState) (c : Option (List AssistantBlock)) :
    ∀ p ∈ processAssistant s c, ∃ id n inp, p = StreamPart.tool_call id n inp := by
  intro p hp
  unfold processAssistant at hp
  rcases c with _ | blocks
  · simp at hp
  · simp only [List.mem_flatMap] at hp
    obtain ⟨b, hbmem, hb⟩ := hp
    rcases b with t | tu | _
    · simp at hb
    · by_cases hh : (s.toolCalls.any fun e => decide (e.2.id = tu.id) && e.2.hasFinished) = true
      · simp [hh] at hb
      · simp [hh] at hb
        exact ⟨_, _, _, hb⟩
    · simp at hb

theorem processUser_parts (c : UserContent) :
    ∀ p ∈ processUser c, ∃ a b e r, p = StreamPart.tool_result a b e r := by
  intro p hp
  unfold processUser at hp
  rcases c with sc | bs
  · simp at hp
  · simp only [List.mem_flatMap] at hp
    obtain ⟨b, hbmem, hb⟩ := hp
    rcases b with ⟨tuid, cc, ie⟩ | _
    · simp at hb
      exact ⟨_, _, _, _, hb⟩
    · simp at hb

theorem scanBlocks_of_no_marks (isStart isEnd : StreamPart → Bool) (l : List StreamPart)
    (opened : Bool) (h : ∀ p ∈ l, isStart p = false ∧ isEnd p = false) :
    scanBlocks isStart isEnd l opened = some opened := by
  induction l with
  | nil => rfl
  | cons p ps ih =>
    have hp := h p (by simp)
    simp [scanBlocks, hp.1, hp.2]
    exact ih fun q hq => h q (by simp [hq])

theorem text_scan_pm (s : StreamState) (m : SDKMessage) (s' : StreamState)
    (out : List StreamPart) (stopped : Bool) (hp : processMessage s m = (s', out, stopped))
    (hnd : textStartGuardOK s m = true) :
    scanBlocks isTextStartPart isTextEndPart out s.hasStartedTextBlock
      = some s'.hasStartedTextBlock := by
  have key : scanBlocks isTextStartPart isTextEndPart (processMessage s m).2.1
      s.hasStartedTextBlock = some (processMessage s m).1.hasStartedTextBlock := by
    cases m with
    | stream_event ev => exact text_scan_pse s ev hnd
    | assistant c =>
      have hm : ∀ p ∈ processAssistant s c,
          isTextStartPart p = false ∧ isTextEndPart p = false := by
        intro p hq
        obtain ⟨id, n, inp, rfl⟩ := processAssistant_parts s c p hq
        exact ⟨rfl, rfl⟩
      simp [processMessage, scanBlocks_of_no_marks _ _ _ _ hm]
    | user c =>
      have hm : ∀ p ∈ processUser c,
          isTextStartPart p = false ∧ isTextEndPart p = false := by
        intro p hq
        obtain ⟨a, b, e, r, rfl⟩ := processUser_parts c p hq
        exact ⟨rfl, rfl⟩
      simp [processMessage, scanBlocks_of_no_marks _ _ _ _ hm]
    | result r =>
      by_cases ht : s.hasStartedTextBlock <;> by_cases hk : s.hasStartedThinkingBlock <;>
        simp [processMessage, processResult, scanBlocks, isTextStartPart, isTextEndPart, ht, hk]
    | system => simp [processMessage, scanBlocks]
  rw [hp] at key
  exact key

theorem think_scan_pm (s : StreamState) (m : SDKMessage) (s' : StreamState)
    (out : List StreamPart) (stopped : Bool) (hp : processMessage s m = (s', out, stopped)) :
    scanBlocks isReasoningStartPart isReasoningEndPart out s.hasStartedThinkingBlock
      = some s'.hasStartedThinkingBlock := by
  have key : scanBlocks isReasoningStartPart isReasoningEndPart (processMessage s m).2.1
      s.hasStartedThinkingBlock = some (processMessage s m).1.hasStartedThinkingBlock := by
    cases m with
    | stream_event ev => exact think_scan_pse s ev
    | assistant c =>
      have hm : ∀ p ∈ processAssistant s c,
          isReasoningStartPart p = false ∧ isReasoningEndPart p = false := by
        intro p hq
        obtain ⟨id, n, inp, rfl⟩ := processAssistant_parts s c p hq
        exact ⟨rfl, rfl⟩
      simp [processMessage, scanBlocks_of_no_marks _ _ _ _ hm]
    | user c =>
      have hm : ∀ p ∈ processUser c,
          isReasoningStartPart p = false ∧ isReasoningEndPart p = false := by
        intro p hq
        obtain ⟨a, b, e, r, rfl⟩ := processUser_parts c p hq
        exact ⟨rfl, rfl⟩
      simp [processMessage, scanBlocks_of_no_marks _ _ _ _ hm]
    | result r =>
      by_cases ht : s.hasStartedTextBlock <;> by_cases hk : s.hasStartedThinkingBlock <;>
        simp [processMessage, processResult, scanBlocks, isReasoningStartPart,
          isReasoningEndPart, ht, hk]
    | system => simp [processMessage, scanBlocks]
  rw [hp] at key
  exact key

theorem runMessages_cons_true (s : StreamState) (m : SDKMessage) (rest : List SDKMessage)
    (s' : StreamState) (out : List StreamPart) (hp : processMessage s m = (s', out, true)) :
    runMessages s (m :: rest) = (s', out, true) := by
  rw [runMessages, hp]

theorem runMessages_cons_false (s : StreamState) (m : SDKMessage) (rest : List SDKMessage)
    (s' : StreamState) (out : List StreamPart) (hp : processMessage s m = (s', out, false)) :
    runMessages s (m :: rest) =
      ((runMessages s' rest).1, out ++ (runMessages s' rest).2.1, (runMessages s' rest).2.2) := by
  rw [runMessages, hp]

theorem text_scan_run (s : StreamState) (msgs : List SDKMessage)
    (hnd : noDupTextStartFrom s msgs = true) :
    scanBlocks isTextStartPart isTextEndPart (runMessages s msgs).2.1 s.hasStartedTextBlock
      = some (runMessages s msgs).1.hasStartedTextBlock := by
  induction msgs generalizing s with
  | nil => simp [runMessages, scanBlocks]
  | cons m rest ih =>
    rw [noDupTextStartFrom, Bool.and_eq_true] at hnd
    obtain ⟨h1, h2⟩ := hnd
    rcases hp : processMessage s m with ⟨s', out, stopped⟩
    rw [hp] at h2
    have hm := text_scan_pm s m s' out stopped hp h1
    cases stopped with
    | true =>
      rw [runMessages_cons_true s m rest s' out hp]
      exact hm
    | false =>
      simp only [Bool.false_eq_true] at h2
      rw [runMessages_cons_false s m rest s' out hp]
      rcases hr : runMessages s' rest with ⟨s'', out', st'⟩
      have hrest := ih s' h2
      rw [hr] at hrest
      show scanBlocks isTextStartPart isTextEndPart (out ++ out') s.hasStartedTextBlock
        = some s''.hasStartedTextBlock
      rw [scanBlocks_append, hm, Option.some_bind]
      exact hrest

theorem think_scan_run (s : StreamState) (msgs : List SDKMessage) :
    scanBlocks isReasoningStartPart isReasoningEndPart (runMessages s msgs).2.1
        s.hasStartedThinkingBlock
      = some (runMessages s msgs).1.hasStartedThinkingBlock := by
  induction msgs generalizing s with
  | nil => simp [runMessages, scanBlocks]
  | cons m rest ih =>
    rcases hp : processMessage s m with ⟨s', out, stopped⟩
    have hm := think_scan_pm s m s' out stopped hp
    cases stopped with
    | true =>
      rw [runMessages_cons_true s m rest s' out hp]
      exact hm
    | false =>
      rw [runMessages_cons_false s m rest s' out hp]
      rcases hr : runMessages s' rest with ⟨s'', out', st'⟩
      have hrest := ih s'
      rw [hr] at hrest
      show scanBlocks isReasoningStartPart isReasoningEndPart (out ++ out')
          s.hasStartedThinkingBlock
        = some s''.hasStartedThinkingBlock
      rw [scanBlocks_append, hm, Option.some_bind]
      exact hrest


theorem processMessage_result_stopped (s : StreamState) (r : SDKResultMessage) :
    processMessage s (.result r) =
      ({ s with hasStartedTextBlock := false, hasStartedThinkingBlock := false },
        (processResult s r).2, true) := by
  simp [processMessage, processResult]

theorem processMessage_stopped_shape (s : StreamState) (m : SDKMessage) (s' : StreamState)
    (out : List StreamPart) (hp : processMessage s m = (s', out, true)) :
    (∃ r, m = SDKMessage.result r) ∧ s'.hasStartedTextBlock = false ∧
      s'.hasStartedThinkingBlock = false := by
  cases m with
  | result r =>
    rw [processMessage_result_stopped] at hp
    refine ⟨⟨r, rfl⟩, ?_, ?_⟩ <;> rw [← (Prod.mk.injEq ..).mp hp |>.1]
  | stream_event ev =>
    rcases hq : processStreamEvent s ev with ⟨a, b⟩
    simp [processMessage, hq] at hp
  | assistant c => simp [processMessage] at hp
  | user c => simp [processMessage] at hp
  | system => simp [processMessage] at hp

theorem stopped_of_containsResult (s : StreamState) (msgs : List SDKMessage)
    (h : containsResult msgs = true) : (runMessages s msgs).2.2 = true := by
  induction msgs generalizing s with
  | nil => simp [containsResult] at h
  | cons m rest ih =>
    rcases hp : processMessage s m with ⟨s', out, stopped⟩
    cases stopped with
    | true => rw [runMessages_cons_true s m rest s' out hp]
    | false =>
      rw [runMessages_cons_false s m rest s' out hp]
      have hrest : containsResult rest = true := by
        cases m with
        | result r =>
          rw [processMessage_result_stopped] at hp
          exact absurd ((Prod.mk.injEq ..).mp hp).2 (by simp)
        | stream_event ev => simpa [containsResult] using h
        | assistant c => simpa [containsResult] using h
        | user c => simpa [containsResult] using h
        | system => simpa [containsResult] using h
      exact ih s' hrest

theorem stopped_flags_false (s : StreamState) (msgs : List SDKMessage)
    (h : (runMessages s msgs).2.2 = true) :
    (runMessages s msgs).1.hasStartedTextBlock = false ∧
      (runMessages s msgs).1.hasStartedThinkingBlock = false := by
  induction msgs generalizing s with
  | nil => simp [runMessages] at h
  | cons m rest ih =>
    rcases hp : processMessage s m with ⟨s', out, stopped⟩
    cases stopped with
    | true =>
      rw [runMessages_cons_true s m rest s' out hp]
      obtain ⟨_, h1, h2⟩ := processMessage_stopped_shape s m s' out hp
      exact ⟨h1, h2⟩
    | false =>
      rw [runMessages_cons_false s m rest s' out hp] at h ⊢
      exact ih s' h

theorem scan_closeOnError_text (s : StreamState) (e : String) :
    scanBlocks isTextStartPart isTextEndPart (closeOpenBlocksOnError s e)
        s.hasStartedTextBlock = some false := by
  by_cases ht : s.hasStartedTextBlock <;> by_cases hk : s.hasStartedThinkingBlock <;>
    simp [closeOpenBlocksOnError, scanBlocks, isTextStartPart, isTextEndPart, ht, hk]

theorem scan_closeOnError_think (s : StreamState) (e : String) :
    scanBlocks isReasoningStartPart isReasoningEndPart (closeOpenBlocksOnError s e)
        s.hasStartedThinkingBlock = some false := by
  by_cases ht : s.hasStartedTextBlock <;> by_cases hk : s.hasStartedThinkingBlock <;>
    simp [closeOpenBlocksOnError, scanBlocks, isReasoningStartPart, isReasoningEndPart, ht, hk]

theorem countTC_append (t : String) (a b : List StreamPart) :
    countToolCallsFor t (a ++ b) = countToolCallsFor t a + countToolCallsFor t b := by
  simp [countToolCallsFor, List.filter_append]

theorem filter_setEntry_none {α : Type} (Q : Nat × α → Bool) (l : List (Nat × α)) (i : Nat)
    (v : α) (hg : getEntry l i = none) :
    ((setEntry l i v).filter Q).length = (l.filter Q).length + (if Q (i, v) then 1 else 0) := by
  induction l with
  | nil => by_cases hq : Q (i, v) <;> simp [setEntry, List.filter_cons, hq]
  | cons kw rest ih =>
    rcases kw with ⟨k, w⟩
    by_cases hk : k = i
    · simp [getEntry, hk] at hg
    · rw [getEntry] at hg
      simp only [if_neg hk] at hg
      rw [setEntry]
      simp only [if_neg hk]
      have hih := ih hg
      by_cases hq : Q (k, w) <;> simp [List.filter_cons, hq] <;> omega

theorem filter_setEntry_some {α : Type} (Q : Nat × α → Bool) (l : List (Nat × α)) (i : Nat)
    (tc v : α) (hg : getEntry l i = some tc) :
    ((setEntry l i v).filter Q).length + (if Q (i, tc) then 1 else 0)
      = (l.filter Q).length + (if Q (i, v) then 1 else 0) := by
  induction l with
  | nil => simp [getEntry] at hg
  | cons kw rest ih =>
    rcases kw with ⟨k, w⟩
    by_cases hk : k = i
    · subst hk
      rw [getEntry] at hg
      simp only [if_pos rfl] at hg
      injection hg with hwtc
      subst hwtc
      rw [setEntry]
      simp only [if_pos rfl]
      by_cases hq1 : Q (k, w) <;> by_cases hq2 : Q (k, v) <;>
        (simp [List.filter_cons, hq1, hq2]; try omega)
    · rw [getEntry] at hg
      simp only [if_neg hk] at hg
      rw [setEntry]
      simp only [if_neg hk]
      have hih := ih hg
      by_cases hq : Q (k, w) <;> simp [List.filter_cons, hq] <;> omega

theorem count_pse (t : String) (s : StreamState) (ev : StreamSubEvent) :
    countToolCallsFor t (processStreamEvent s ev).2
      + pendingEntriesFor t (processStreamEvent s ev).1
      ≤ pendingEntriesFor t s + startsWithId t [.stream_event ev] := by
  cases ev with
  | content_block_start i cb =>
    cases cb with
    | none => simp [processStreamEvent, countToolCallsFor, startsWithId]
    | some c =>
      cases c with
      | text =>
        simp [processStreamEvent, countToolCallsFor, pendingEntriesFor, startsWithId]
      | tool_use id name =>
        cases i with
        | none => simp [processStreamEvent, countToolCallsFor, startsWithId]
        | some idx =>
          cases hg : getEntry s.toolCalls idx with
          | none =>
            have h1 := filter_setEntry_none
              (fun e => decide (e.2.id = t) && !e.2.hasFinished)
              s.toolCalls idx ⟨id, name, "", false⟩ hg
            by_cases hidt : id = t <;>
              simp [processStreamEvent, countToolCallsFor, pendingEntriesFor, startsWithId,
                List.filter_cons, hidt] at h1 ⊢ <;> omega
          | some tc =>
            have h1 := filter_setEntry_some
              (fun e => decide (e.2.id = t) && !e.2.hasFinished)
              s.toolCalls idx tc ⟨id, name, "", false⟩ hg
            by_cases hidt : id = t <;>
              by_cases htc : (decide (tc.id = t) && !tc.hasFinished) = true <;>
                simp [processStreamEvent, countToolCallsFor, pendingEntriesFor, startsWithId,
                  List.filter_cons, hidt, htc] at h1 ⊢ <;> omega
      | other => simp [processStreamEvent, countToolCallsFor, startsWithId]
  | content_block_delta i d =>
    cases d with
    | none => simp [processStreamEvent, countToolCallsFor, startsWithId]
    | some c =>
      cases c with
      | text_delta tx =>
        by_cases h : s.hasStartedTextBlock <;>
          simp [processStreamEvent, countToolCallsFor, pendingEntriesFor, startsWithId,
            List.filter_cons, h]
      | thinking_delta tx =>
        by_cases h : s.hasStartedThinkingBlock <;>
          simp [processStreamEvent, countToolCallsFor, pendingEntriesFor, startsWithId,
            List.filter_cons, h]
      | input_json_delta pj =>
        cases i with
        | none => simp [processStreamEvent, countToolCallsFor, startsWithId]
        | some idx =>
          by_cases hpj : pj = ""
          · simp [processStreamEvent, countToolCallsFor, startsWithId, hpj]
          · cases hg : getEntry s.toolCalls idx with
            | none =>
              simp [processStreamEvent, countToolCallsFor, startsWithId, hpj, hg]
            | some tc =>
              by_cases hf : tc.hasFinished
              · simp [processStreamEvent, countToolCallsFor, startsWithId, hpj, hg, hf]
              · by_cases hp : isParsableJson (tc.arguments ++ pj)
                · have h1 := filter_setEntry_some
                    (fun e => decide (e.2.id = t) && !e.2.hasFinished)
                    s.toolCalls idx tc ⟨tc.id, tc.name, tc.arguments ++ pj, true⟩ hg
                  by_cases hidt : tc.id = t <;>
                    simp [processStreamEvent, countToolCallsFor, pendingEntriesFor,
                      startsWithId, List.filter_cons, hpj, hg, hf, hp, hidt] at h1 ⊢ <;>
                    omega
                · have h1 := filter_setEntry_some
                    (fun e => decide (e.2.id = t) && !e.2.hasFinished)
                    s.toolCalls idx tc ⟨tc.id, tc.name, tc.arguments ++ pj, false⟩ hg
                  by_cases hidt : tc.id = t <;>
                    simp [processStreamEvent, countToolCallsFor, pendingEntriesFor,
                      startsWithId, List.filter_cons, hpj, hg, hf, hp, hidt] at h1 ⊢ <;>
                    omega
      | other => simp [processStreamEvent, countToolCallsFor, startsWithId]
  | content_block_stop i =>
    cases i with
    | none =>
      by_cases h : s.hasStartedTextBlock <;>
        simp [processStreamEvent, countToolCallsFor, pendingEntriesFor, startsWithId,
          List.filter_cons, h]
    | some idx =>
      cases hg : getEntry s.toolCalls idx with
      | none =>
        by_cases h : s.hasStartedTextBlock <;>
          simp [processStreamEvent, countToolCallsFor, pendingEntriesFor, startsWithId,
            List.filter_cons, h, hg]
      | some tc =>
        by_cases hf : tc.hasFinished
        · by_cases h : s.hasStartedTextBlock <;>
            simp [processStreamEvent, countToolCallsFor, pendingEntriesFor, startsWithId,
              List.filter_cons, h, hg, hf]
        · by_cases hp : isParsableJson tc.arguments
          · have h1 := filter_setEntry_some
              (fun e => decide (e.2.id = t) && !e.2.hasFinished)
              s.toolCalls idx tc ⟨tc.id, tc.name, tc.arguments, true⟩ hg
            by_cases hidt : tc.id = t <;>
              by_cases h : s.hasStartedTextBlock <;>
                simp [processStreamEvent, countToolCallsFor, pendingEntriesFor, startsWithId,
                  List.filter_cons, h, hg, hf, hp, hidt] at h1 ⊢ <;>
                omega
          · by_cases h : s.hasStartedTextBlock <;>
              simp [processStreamEvent, countToolCallsFor, pendingEntriesFor, startsWithId,
                List.filter_cons, h, hg, hf, hp]
  | other => simp [processStreamEvent, countToolCallsFor, startsWithId]

theorem countTC_zero_of (t : String) (l : List StreamPart)
    (h : ∀ p ∈ l, ∀ id n inp, p ≠ StreamPart.tool_call id n inp) :
    countToolCallsFor t l = 0 := by
  unfold countToolCallsFor
  rw [List.length_eq_zero, List.filter_eq_nil_iff]
  intro p hp
  cases p
  case tool_call id n inp => exact absurd rfl (h _ hp id n inp)
  all_goals simp

theorem filter_cons_len {α : Type} (p : α → Bool) (m : α) (l : List α) :
    (List.filter p (m :: l)).length = (List.filter p [m]).length + (List.filter p l).length := by
  cases hp : p m <;> (simp [List.filter_cons, hp]; try omega)

theorem startsWithId_cons (t : String) (m : SDKMessage) (rest : List SDKMessage) :
    startsWithId t (m :: rest) = startsWithId t [m] + startsWithId t rest := by
  unfold startsWithId
  exact filter_cons_len _ _ _

theorem processAssistant_cons (s : StreamState) (b : AssistantBlock)
    (rest : List AssistantBlock) :
    processAssistant s (some (b :: rest)) =
      processAssistant s (some [b]) ++ processAssistant s (some rest) := by
  simp [processAssistant]

theorem count_assistant (t : String) (s : StreamState) (c : Option (List AssistantBlock))
    (hcond : assistantMentions t c = true → finishedEntryFor t s = true) :
    countToolCallsFor t (processAssistant s c) = 0 := by
  cases c with
  | none => rfl
  | some blocks =>
    induction blocks with
    | nil => rfl
    | cons b rest ih =>
      rw [processAssistant_cons, countTC_append]
      have hrest : countToolCallsFor t (processAssistant s (some rest)) = 0 := by
        apply ih
        intro hm
        apply hcond
        simp [assistantMentions] at hm ⊢
        exact Or.inr hm
      rw [hrest]
      have hhead : countToolCallsFor t (processAssistant s (some [b])) = 0 := by
        cases b with
        | text tx => rfl
        | other => rfl
        | tool_use tu =>
          by_cases ha :
              (s.toolCalls.any fun e => decide (e.2.id = tu.id) && e.2.hasFinished) = true
          · simp [processAssistant, ha, countToolCallsFor]
          · by_cases hidt : tu.id = t
            · exfalso
              apply ha
              have hfin : finishedEntryFor t s = true := by
                apply hcond
                simp [assistantMentions]
                exact Or.inl hidt
              simp [finishedEntryFor] at hfin
              obtain ⟨k, etc, hmem, hid, hfin2⟩ := hfin
              simp only [List.any_eq_true]
              refine ⟨(k, etc), hmem, ?_⟩
              simp [hid, hidt, hfin2]
            · simp [processAssistant, ha, countToolCallsFor, List.filter_cons, hidt]
      omega

theorem count_user (t : String) (c : UserContent) :
    countToolCallsFor t (processUser c) = 0 := by
  apply countTC_zero_of
  intro p hp id n inp
  obtain ⟨a, b, e, r, rfl⟩ := processUser_parts c p hp
  simp

theorem count_result (t : String) (s : StreamState) (r : SDKResultMessage) :
    countToolCallsFor t (processResult s r).2 = 0 := by
  by_cases ht : s.hasStartedTextBlock <;> by_cases hk : s.hasStartedThinkingBlock <;>
    simp [processResult, countToolCallsFor, List.filter_cons, ht, hk]

theorem count_closeOnError (t : String) (s : StreamState) (e : String) :
    countToolCallsFor t (closeOpenBlocksOnError s e) = 0 := by
  by_cases ht : s.hasStartedTextBlock <;> by_cases hk : s.hasStartedThinkingBlock <;>
    simp [closeOpenBlocksOnError, countToolCallsFor, List.filter_cons, ht, hk]

theorem count_pm (t : String) (s : StreamState) (m : SDKMessage) (s' : StreamState)
    (out : List StreamPart) (stopped : Bool) (hp : processMessage s m = (s', out, stopped))
    (hcond : ∀ c, m = SDKMessage.assistant c →
      assistantMentions t c = true → finishedEntryFor t s = true) :
    countToolCallsFor t out + pendingEntriesFor t s'
      ≤ pendingEntriesFor t s + startsWithId t [m] := by
  cases m with
  | stream_event ev =>
    have key := count_pse t s ev
    rcases hq : processStreamEvent s ev with ⟨a, b⟩
    rw [hq] at key
    simp [processMessage, hq] at hp
    rw [← hp.1, ← hp.2.1]
    exact key
  | assistant c =>
    simp [processMessage] at hp
    rw [← hp.1, ← hp.2.1]
    rw [count_assistant t s c (hcond c rfl)]
    simp [startsWithId]
  | user c =>
    simp [processMessage] at hp
    rw [← hp.1, ← hp.2.1]
    rw [count_user t c]
    simp [startsWithId]
  | result r =>
    rw [processMessage_result_stopped] at hp
    injection hp with h1 hrest
    injection hrest with h2 h3
    rw [← h1, ← h2, count_result]
    simp [pendingEntriesFor, startsWithId]
  | system =>
    simp [processMessage] at hp
    rw [← hp.1, hp.2.1]
    simp [countToolCallsFor, startsWithId]

theorem assistantGuardOK_spec (t : String) (s : StreamState)
    (c : Option (List AssistantBlock)) (h : assistantGuardOK t s (.assistant c) = true)
    (hm : assistantMentions t c = true) : finishedEntryFor t s = true := by
  simp [assistantGuardOK, hm] at h
  exact h

theorem count_run (t : String) (s : StreamState) (msgs : List SDKMessage)
    (hcond : assistantAfterFinished t s msgs = true) :
    countToolCallsFor t (runMessages s msgs).2.1 + pendingEntriesFor t (runMessages s msgs).1
      ≤ pendingEntriesFor t s + startsWithId t msgs := by
  induction msgs generalizing s with
  | nil => simp [runMessages, countToolCallsFor, startsWithId]
  | cons m rest ih =>
    rw [assistantAfterFinished, Bool.and_eq_true] at hcond
    obtain ⟨hc1, hc2⟩ := hcond
    rcases hp : processMessage s m with ⟨s', out, stopped⟩
    rw [hp] at hc2
    have hm : countToolCallsFor t out + pendingEntriesFor t s'
        ≤ pendingEntriesFor t s + startsWithId t [m] := by
      apply count_pm t s m s' out stopped hp
      intro c hceq hment
      subst hceq
      exact assistantGuardOK_spec t s c hc1 hment
    rw [startsWithId_cons]
    cases stopped with
    | true =>
      rw [runMessages_cons_true s m rest s' out hp]
      show countToolCallsFor t out + pendingEntriesFor t s'
        ≤ pendingEntriesFor t s + (startsWithId t [m] + startsWithId t rest)
      omega
    | false =>
      simp only [Bool.false_eq_true] at hc2
      rw [runMessages_cons_false s m rest s' out hp]
      rcases hr : runMessages s' rest with ⟨s'', out', st'⟩
      have hrest := ih s' hc2
      rw [hr] at hrest
      show countToolCallsFor t (out ++ out') + pendingEntriesFor t s''
        ≤ pendingEntriesFor t s + (startsWithId t [m] + startsWithId t rest)
      rw [countTC_append]
      simp only at hrest
      omega


/-! Claim theorems.  Each claim of the specification is settled by one
theorem below; corrected claims additionally have a counterexample theorem
refuting the claim as literally stated, and theorems with hypotheses have a
closed witness instantiating them. -/

/-- Example session for the C1 counterexample: a tool-use block is started
and the session then terminates with a result, without a
`content_block_stop` for the tool index. -/
def C1cexA : List SDKMessage :=
  [.stream_event (.content_block_start (some 1) (some (.tool_use "t1" "Read"))),
   .result ⟨"success", "", ⟨1, 2⟩, []⟩]

/-- Example session for the C1 counterexample: a redundant
`content_block_start` for text while the text block is already open. -/
def C1cexB : List SDKMessage :=
  [.stream_event (.content_block_start (some 0) (some .text)),
   .stream_event (.content_block_start (some 0) (some .text)),
   .stream_event (.content_block_stop none),
   .result ⟨"success", "", ⟨1, 2⟩, []⟩]

/-- Example session for the C1 counterexample: the generator is exhausted
while a text block is open. -/
def C1cexC : List SDKMessage :=
  [.stream_event (.content_block_delta (some 0) (some (.text_delta "hi")))]

/-- C1 (counterexample): the block-closure claim fails as stated.  A
`tool-input-start` gets no `tool-input-end` when the session ends at a
result with no `content_block_stop` for that index; a redundant text
`content_block_start` emits a second `text-start` with only one `text-end`;
and on generator exhaustion without a result an open text block is never
closed. -/
theorem C1_counterexample :
    properlyClosed (isToolInputStartPart "t1") (isToolInputEndPart "t1")
        (doStream C1cexA .exhausted) = false ∧
    properlyClosed isTextStartPart isTextEndPart (doStream C1cexB .exhausted) = false ∧
    properlyClosed isTextStartPart isTextEndPart (doStream C1cexC .exhausted) = false := by
  refine ⟨by decide, by decide, by decide⟩

/-- C1 (amended): provided the session terminates via a `result` message or
an upstream exception (not bare exhaustion), and the upstream never emits a
`content_block_start` for text while the text block is already open, every
emitted `text-start` and `reasoning-start` is matched by exactly one
corresponding end event before the output closes.  Tool-input blocks carry
no such guarantee. -/
theorem C1_block_closure (msgs : List SDKMessage) (tail : Tail)
    (hterm : containsResult msgs = true ∨ tail ≠ Tail.exhausted)
    (hnd : noDupTextStartFrom initialStreamState msgs = true) :
    properlyClosed isTextStartPart isTextEndPart (doStream msgs tail) = true ∧
    properlyClosed isReasoningStartPart isReasoningEndPart (doStream msgs tail) = true := by
  rcases hr : runMessages initialStreamState msgs with ⟨s, out, stopped⟩
  have htext := text_scan_run initialStreamState msgs hnd
  have hthink := think_scan_run initialStreamState msgs
  rw [hr] at htext hthink
  have hinit_t : initialStreamState.hasStartedTextBlock = false := rfl
  have hinit_k : initialStreamState.hasStartedThinkingBlock = false := rfl
  rw [hinit_t] at htext
  rw [hinit_k] at hthink
  unfold doStream
  rw [hr]
  cases stopped with
  | true =>
    have hflags := stopped_flags_false initialStreamState msgs (by rw [hr])
    rw [hr] at hflags
    constructor
    · unfold properlyClosed
      rw [decide_eq_true_eq]
      show scanBlocks isTextStartPart isTextEndPart
        (StreamPart.stream_start :: (out ++ [])) false = some false
      rw [List.append_nil]
      simp only [scanBlocks, isTextStartPart, isTextEndPart, Bool.false_eq_true, if_false]
      rw [htext, hflags.1]
    · unfold properlyClosed
      rw [decide_eq_true_eq]
      show scanBlocks isReasoningStartPart isReasoningEndPart
        (StreamPart.stream_start :: (out ++ [])) false = some false
      rw [List.append_nil]
      simp only [scanBlocks, isReasoningStartPart, isReasoningEndPart, Bool.false_eq_true,
        if_false]
      rw [hthink, hflags.2]
  | false =>
    cases tail with
    | exhausted =>
      rcases hterm with hterm | hterm
      · have := stopped_of_containsResult initialStreamState msgs hterm
        rw [hr] at this
        simp at this
      · exact absurd rfl hterm
    | thrown e =>
      constructor
      · unfold properlyClosed
        rw [decide_eq_true_eq]
        show scanBlocks isTextStartPart isTextEndPart
          (StreamPart.stream_start :: (out ++ closeOpenBlocksOnError s e)) false = some false
        simp only [scanBlocks, isTextStartPart, isTextEndPart, Bool.false_eq_true, if_false]
        rw [scanBlocks_append, htext, Option.some_bind]
        exact scan_closeOnError_text s e
      · unfold properlyClosed
        rw [decide_eq_true_eq]
        show scanBlocks isReasoningStartPart isReasoningEndPart
          (StreamPart.stream_start :: (out ++ closeOpenBlocksOnError s e)) false = some false
        simp only [scanBlocks, isReasoningStartPart, isReasoningEndPart, Bool.false_eq_true,
          if_false]
        rw [scanBlocks_append, hthink, Option.some_bind]
        exact scan_closeOnError_think s e

/-- Example session for the C1 witness: a well-formed text and reasoning
session ending in a result. -/
def C1wMsgs : List SDKMessage :=
  [.stream_event (.content_block_start (some 0) (some .text)),
   .stream_event (.content_block_delta (some 0) (some (.text_delta "Hello"))),
   .stream_event (.content_block_delta (some 0) (some (.thinking_delta "mm"))),
   .stream_event (.content_block_stop (some 0)),
   .result ⟨"success", "Hello", ⟨5, 7⟩, []⟩]

/-- C1 witness: the amended closure theorem applied to a concrete session. -/
theorem C1_block_closure_witness :
    noDupTextStartFrom initialStreamState C1wMsgs = true ∧
    properlyClosed isTextStartPart isTextEndPart (doStream C1wMsgs .exhausted) = true ∧
    properlyClosed isReasoningStartPart isReasoningEndPart (doStream C1wMsgs .exhausted) = true :=
  ⟨by decide,
   (C1_block_closure C1wMsgs .exhausted (Or.inl (by decide)) (by decide)).1,
   (C1_block_closure C1wMsgs .exhausted (Or.inl (by decide)) (by decide)).2⟩

/-- Example session for the C2 counterexample: the same tool id appears in
two complete assistant messages; the fallback path emits a `tool-call` for
each, as it records nothing. -/
def C2cexA : List SDKMessage :=
  [.assistant (some [.tool_use ⟨"t1", "Read", .jsObj []⟩]),
   .assistant (some [.tool_use ⟨"t1", "Read", .jsObj []⟩]),
   .result ⟨"success", "", ⟨1, 2⟩, []⟩]

/-- Example session for the C2 counterexample: the assistant message for a
tool arrives before its incremental JSON accumulation completes, so both the
fallback and the incremental path emit a `tool-call`. -/
def C2cexB : List SDKMessage :=
  [.stream_event (.content_block_start (some 0) (some (.tool_use "t1" "Read"))),
   .assistant (some [.tool_use ⟨"t1", "Read", .jsObj []⟩]),
   .stream_event (.content_block_delta (some 0) (some (.input_json_delta "{}")))]

/-- C2 (counterexample): the at-most-once claim fails as stated: a tool id
occurring in two assistant messages, or in an assistant message processed
before its incremental accumulation completes, yields two `tool-call`
events. -/
theorem C2_counterexample :
    countToolCallsFor "t1" (doStream C2cexA .exhausted) = 2 ∧
    countToolCallsFor "t1" (doStream C2cexB .exhausted) = 2 := by
  refine ⟨by decide, by decide⟩

/-- C2 (amended): each distinct upstream tool id yields at most one
`tool-call` output event, provided (i) at most one `content_block_start`
introduces that id and (ii) every assistant message mentioning the id is
processed only after the correlation table holds a finished entry for it
(so the fallback path stays silent). -/
theorem C2_tool_call_unique (t : String) (msgs : List SDKMessage) (tail : Tail)
    (h1 : startsWithId t msgs ≤ 1)
    (h2 : assistantAfterFinished t initialStreamState msgs = true) :
    countToolCallsFor t (doStream msgs tail) ≤ 1 := by
  rcases hr : runMessages initialStreamState msgs with ⟨s, out, stopped⟩
  unfold doStream
  rw [hr]
  have hc := count_run t initialStreamState msgs h2
  rw [hr] at hc
  simp only at hc
  have hinit : pendingEntriesFor t initialStreamState = 0 := rfl
  have hclose : countToolCallsFor t
      (if stopped = true then []
       else match tail with
         | Tail.exhausted => []
         | Tail.thrown e => closeOpenBlocksOnError s e) = 0 := by
    cases stopped with
    | true => simp [countToolCallsFor]
    | false =>
      cases tail with
      | exhausted => simp [countToolCallsFor]
      | thrown e => simpa using count_closeOnError t s e
  have hhead : ∀ l : List StreamPart,
      countToolCallsFor t (StreamPart.stream_start :: l) = countToolCallsFor t l := by
    intro l
    simp [countToolCallsFor, List.filter_cons]
  show countToolCallsFor t (StreamPart.stream_start ::
      (out ++ (if stopped = true then []
       else match tail with
         | Tail.exhausted => []
         | Tail.thrown e => closeOpenBlocksOnError s e))) ≤ 1
  rw [hhead, countTC_append, hclose]
  omega

/-- Example session for the C2 witness: a tool call completed incrementally,
then repeated by the assistant fallback message — emitted only once. -/
def C2wMsgs : List SDKMessage :=
  [.stream_event (.content_block_start (some 0) (some (.tool_use "t1" "Read"))),
   .stream_event (.content_block_delta (some 0) (some (.input_json_delta "{}"))),
   .assistant (some [.tool_use ⟨"t1", "Read", .jsObj []⟩]),
   .result ⟨"success", "ok", ⟨1, 2⟩, []⟩]

/-- C2 witness: the amended uniqueness theorem applied to a concrete
session. -/
theorem C2_tool_call_unique_witness :
    startsWithId "t1" C2wMsgs ≤ 1 ∧
    assistantAfterFinished "t1" initialStreamState C2wMsgs = true ∧
    countToolCallsFor "t1" (doStream C2wMsgs .exhausted) ≤ 1 :=
  ⟨by decide, by decide,
   C2_tool_call_unique "t1" C2wMsgs .exhausted (by decide) (by decide)⟩

/-- Example options for C3: a call requesting schema-constrained structured
output through every option shape the repository's tests exercise
(`schema`, `mode`, `output`, `outputSchema`). -/
def C3exOptions : CallOptions :=
  ⟨[⟨"user", .str "test"⟩], none, none,
    some (.jsObj [("type", .jsStr "object")]), some "json", some "object", some (.jsObj [])⟩

/-- Example upstream result for C3. -/
def C3exResult : SDKResultMessage := ⟨"success", "ok", ⟨1, 2⟩, []⟩

/-- C3: contrary to the claim (and to the repository's own tests, which
expect a `checkForObjectGeneration` method throwing
`UnsupportedFunctionalityError`), no structured-output check exists:
`doGenerate` runs to a successful result and `doStream` produces a normal
finished stream even when the options request schema-constrained output. -/
theorem C3_structured_output_accepted :
    (doGenerate "claude-3-5-sonnet-20241022" C3exOptions [.result C3exResult] .exhausted).isOk
        = true ∧
    (doStreamCall "claude-3-5-sonnet-20241022" C3exOptions [.result C3exResult] .exhausted).stream
        = [.stream_start, .finish "stop" ⟨1, 2, 3⟩] := by
  refine ⟨by decide, by decide⟩

/-- Example input for the C4 counterexample: an open reasoning block, then a
`content_block_stop`. -/
def C4exMsgs : List SDKMessage :=
  [.stream_event (.content_block_delta (some 0) (some (.thinking_delta "m"))),
   .stream_event (.content_block_stop (some 0))]

/-- C4 (counterexample): `content_block_stop` does not close an open
reasoning block — the stream for a thinking delta followed by a stop carries
no `reasoning-end` at all. -/
theorem C4_counterexample :
    doStream C4exMsgs .exhausted =
      [.stream_start,
       .reasoning_start thinkingBlockId textBlockId "thinking_start",
       .reasoning_delta thinkingBlockId "m" textBlockId "thinking_delta"] ∧
    (∀ p ∈ doStream C4exMsgs .exhausted, isReasoningEndPart p = false) := by
  refine ⟨by decide, by decide⟩

/-- C4 (amended): on every `content_block_stop`, an open text block is
closed (`text-end` first, flag cleared) — but the reasoning block is left
untouched: the handler emits no `reasoning-end` and preserves the
reasoning-open flag; reasoning closes only at `result` or on error. -/
theorem C4_stop_closes_text (s : StreamState) (i : Option Nat) :
    (processStreamEvent s (.content_block_stop i)).1.hasStartedTextBlock = false ∧
    (s.hasStartedTextBlock = true →
      (processStreamEvent s (.content_block_stop i)).2.head? = some (.text_end textBlockId)) ∧
    (s.hasStartedTextBlock = false →
      ∀ p ∈ (processStreamEvent s (.content_block_stop i)).2, isTextEndPart p = false) ∧
    (processStreamEvent s (.content_block_stop i)).1.hasStartedThinkingBlock
        = s.hasStartedThinkingBlock ∧
    (∀ p ∈ (processStreamEvent s (.content_block_stop i)).2, isReasoningEndPart p = false) := by
  cases i with
  | none =>
    by_cases h : s.hasStartedTextBlock <;>
      simp_all [processStreamEvent, isTextEndPart, isReasoningEndPart]
  | some idx =>
    cases hg : getEntry s.toolCalls idx with
    | none =>
      by_cases h : s.hasStartedTextBlock <;>
        simp_all [processStreamEvent, isTextEndPart, isReasoningEndPart]
    | some tc =>
      by_cases hf : tc.hasFinished
      · by_cases h : s.hasStartedTextBlock <;>
          simp_all [processStreamEvent, isTextEndPart, isReasoningEndPart]
      · by_cases hp : isParsableJson tc.arguments <;>
          by_cases h : s.hasStartedTextBlock <;>
            simp_all [processStreamEvent, isTextEndPart, isReasoningEndPart]

/-- C4 witness: the stop handler on a state with both blocks open emits
`text-end` first and keeps the reasoning flag set. -/
theorem C4_stop_closes_text_witness :
    (processStreamEvent ⟨true, true, [], []⟩ (.content_block_stop none)).2.head?
        = some (.text_end textBlockId) ∧
    (processStreamEvent ⟨true, true, [], []⟩
        (.content_block_stop none)).1.hasStartedThinkingBlock = true :=
  ⟨(C4_stop_closes_text ⟨true, true, [], []⟩ none).2.1 rfl,
   (C4_stop_closes_text ⟨true, true, [], []⟩ none).2.2.2.1⟩

/-- Example result for the C5 counterexample: two denials of the same
tool. -/
def C5exMsg : SDKResultMessage :=
  ⟨"success", "", ⟨1, 2⟩, [⟨"Bash", "id1", .jsObj []⟩, ⟨"Bash", "id2", .jsObj []⟩]⟩

/-- C5 (counterexample): the warning message does not list the distinct
denied tool names — repeated denials of the same tool are repeated in the
message, so it differs from the de-duplicated, first-seen-order message the
claim describes. -/
theorem C5_counterexample :
    (extractWarnings C5exMsg).map CallWarning.message =
      ["Permission denied for tools: Bash, Bash"] ∧
    "Permission denied for tools: "
        ++ joinStrings ", " (firstSeen (C5exMsg.permission_denials.map PermissionDenial.tool_name))
      = "Permission denied for tools: Bash" ∧
    (extractWarnings C5exMsg).map CallWarning.message ≠
      ["Permission denied for tools: "
        ++ joinStrings ", "
            (firstSeen (C5exMsg.permission_denials.map PermissionDenial.tool_name))] := by
  refine ⟨by decide, by decide, by decide⟩

/-- C5 (amended): when the permission-denial list is non-empty,
`extractWarnings` returns exactly one warning whose message lists all denied
tool names (repetitions included) in denial order, comma-joined; when the
list is empty it returns no warnings. -/
theorem C5_warnings (r : SDKResultMessage) :
    (r.permission_denials ≠ [] →
      extractWarnings r = [⟨"other", "Permission denied for tools: "
        ++ joinStrings ", " (r.permission_denials.map PermissionDenial.tool_name)⟩]) ∧
    (r.permission_denials = [] → extractWarnings r = []) := by
  constructor
  · intro h
    simp [extractWarnings, List.length_pos.mpr h]
  · intro h
    simp [extractWarnings, h]

/-- C5 witness: the amended warning theorem applied to two distinct
denials (Scenario F) and to the empty denial list. -/
theorem C5_warnings_witness :
    extractWarnings ⟨"success", "", ⟨0, 0⟩, [⟨"Bash", "x", .jsNull⟩, ⟨"Write", "y", .jsNull⟩]⟩
        = [⟨"other", "Permission denied for tools: Bash, Write"⟩] ∧
    extractWarnings ⟨"success", "", ⟨0, 0⟩, []⟩ = [] :=
  ⟨((C5_warnings ⟨"success", "", ⟨0, 0⟩,
        [⟨"Bash", "x", .jsNull⟩, ⟨"Write", "y", .jsNull⟩]⟩).1 (by simp)).trans (by decide),
   (C5_warnings ⟨"success", "", ⟨0, 0⟩, []⟩).2 rfl⟩

/-- C6: `mapFinishReason` is a pure total function of the result subtype:
it depends only on the subtype, maps `error_max_turns` to `length`,
`error_during_execution` to `error`, and every other subtype (including
`success`) to `stop`; being a total Lean function it cannot throw. -/
theorem C6_mapFinishReason :
    (∀ r r' : SDKResultMessage, r.subtype = r'.subtype →
      mapFinishReason r = mapFinishReason r') ∧
    (∀ r : SDKResultMessage, r.subtype = "error_max_turns" → mapFinishReason r = "length") ∧
    (∀ r : SDKResultMessage, r.subtype = "error_during_execution" →
      mapFinishReason r = "error") ∧
    (∀ r : SDKResultMessage, r.subtype ≠ "error_max_turns" →
      r.subtype ≠ "error_during_execution" → mapFinishReason r = "stop") := by
  refine ⟨fun r r' h => ?_, fun r h => ?_, fun r h => ?_, fun r h1 h2 => ?_⟩
  · simp [mapFinishReason, h]
  · simp [mapFinishReason, h]
  · simp [mapFinishReason, h]
  · simp [mapFinishReason, h1, h2]

/-- C6 witness: the mapping evaluated on the three representative
subtypes. -/
theorem C6_mapFinishReason_witness :
    mapFinishReason ⟨"error_max_turns", "", ⟨1, 2⟩, []⟩ = "length" ∧
    mapFinishReason ⟨"error_during_execution", "", ⟨1, 2⟩, []⟩ = "error" ∧
    mapFinishReason ⟨"success", "ok", ⟨1, 2⟩, []⟩ = "stop" :=
  ⟨C6_mapFinishReason.2.1 ⟨"error_max_turns", "", ⟨1, 2⟩, []⟩ rfl,
   C6_mapFinishReason.2.2.1 ⟨"error_during_execution", "", ⟨1, 2⟩, []⟩ rfl,
   C6_mapFinishReason.2.2.2 ⟨"success", "ok", ⟨1, 2⟩, []⟩ (by decide) (by decide)⟩

/-- C7: when the upstream generator is exhausted without ever yielding a
result message, `doGenerate` never returns a value — on plain exhaustion it
fails with the wrapped missing-result error — and once a result message
occurs, everything after the first result is never consumed (the output is
unchanged by any suffix and by how the generator would have ended). -/
theorem C7_no_result_error :
    (∀ (modelId : String) (opts : CallOptions) (msgs : List SDKMessage) (tail : Tail)
      (res : GenerateResult), containsResult msgs = false →
      doGenerate modelId opts msgs tail ≠ .ok res) ∧
    (∀ (modelId : String) (opts : CallOptions) (msgs : List SDKMessage),
      containsResult msgs = false →
      doGenerate modelId opts msgs .exhausted =
        .error "Claude Code API error: Error: No result received from Claude Code") ∧
    (∀ (modelId : String) (opts : CallOptions) (msgs extra : List SDKMessage)
      (tail tail' : Tail), containsResult msgs = true →
      doGenerate modelId opts (msgs ++ extra) tail = doGenerate modelId opts msgs tail') := by
  refine ⟨?_, ?_, ?_⟩
  · intro modelId opts msgs tail res h
    have h2 := collectMessages_snd_none msgs h
    rcases hc : collectMessages msgs with ⟨l, r?⟩
    rw [hc] at h2
    simp at h2
    subst h2
    cases tail <;> simp [doGenerate, hc]
  · intro modelId opts msgs h
    have h2 := collectMessages_snd_none msgs h
    rcases hc : collectMessages msgs with ⟨l, r?⟩
    rw [hc] at h2
    simp at h2
    subst h2
    simp [doGenerate, hc]
  · intro modelId opts msgs extra tail tail' h
    have hap := collectMessages_append msgs extra h
    have h2 := collectMessages_isSome msgs h
    rcases hc : collectMessages msgs with ⟨l, r?⟩
    rw [hc] at h2 hap
    cases r? with
    | none => simp at h2
    | some r => simp [doGenerate, hap, hc]

/-- Example options for the C7 and C8 witnesses: a plain text call. -/
def C7wOptions : CallOptions := ⟨[⟨"user", .str "hi"⟩], none, none, none, none, none, none⟩

/-- C7 witness: the contract applied to a resultless session and to a
session whose result is followed by further messages. -/
theorem C7_no_result_error_witness :
    doGenerate "m" C7wOptions [.system] .exhausted =
      .error "Claude Code API error: Error: No result received from Claude Code" ∧
    doGenerate "m" C7wOptions ([.result ⟨"success", "ok", ⟨1, 2⟩, []⟩] ++ [.system])
        (.thrown "boom") =
      doGenerate "m" C7wOptions [.result ⟨"success", "ok", ⟨1, 2⟩, []⟩] .exhausted :=
  ⟨C7_no_result_error.2.1 "m" C7wOptions [.system] (by decide),
   C7_no_result_error.2.2 "m" C7wOptions [.result ⟨"success", "ok", ⟨1, 2⟩, []⟩] [.system]
     (.thrown "boom") .exhausted (by decide)⟩

/-- C8: both the single-shot result of `doGenerate` and every `finish`
event of `doStream` report `totalTokens` as the sum of `inputTokens` and
`outputTokens`, which are taken from the result message's usage. -/
theorem C8_usage_additive :
    (∀ (modelId : String) (opts : CallOptions) (msgs : List SDKMessage) (tail : Tail)
      (res : GenerateResult), doGenerate modelId opts msgs tail = .ok res →
      res.usage.totalTokens = res.usage.inputTokens + res.usage.outputTokens) ∧
    (∀ (msgs : List SDKMessage) (tail : Tail) (fr : String) (u : OutUsage),
      StreamPart.finish fr u ∈ doStream msgs tail →
      u.totalTokens = u.inputTokens + u.outputTokens) := by
  constructor
  · intro modelId opts msgs tail res hok
    rcases hc : collectMessages msgs with ⟨l, r?⟩
    cases r? with
    | some r =>
      rw [doGenerate.eq_def, hc] at hok
      simp at hok
      subst hok
      rfl
    | none =>
      rw [doGenerate.eq_def, hc] at hok
      cases tail <;> simp at hok
  · intro msgs tail fr u h
    unfold doStream at h
    rcases hr : runMessages initialStreamState msgs with ⟨s, out, stopped⟩
    rw [hr] at h
    simp at h
    rcases h with h | h
    · exact finish_runMessages initialStreamState msgs fr u (by rw [hr]; exact h)
    · cases stopped with
      | true => simp at h
      | false =>
        cases tail with
        | exhausted => simp at h
        | thrown e => simp [closeOpenBlocksOnError] at h

/-- C8 witness: additivity observed on a concrete single-shot call and on
the finish event of a concrete stream. -/
theorem C8_usage_additive_witness :
    (∃ res, doGenerate "m" C7wOptions [.result ⟨"success", "ok", ⟨5, 7⟩, []⟩] .exhausted
        = .ok res ∧
      res.usage.totalTokens = res.usage.inputTokens + res.usage.outputTokens) ∧
    (StreamPart.finish "stop" ⟨5, 7, 12⟩
        ∈ doStream [.result ⟨"success", "ok", ⟨5, 7⟩, []⟩] .exhausted ∧
      (⟨5, 7, 12⟩ : OutUsage).totalTokens
        = (⟨5, 7, 12⟩ : OutUsage).inputTokens + (⟨5, 7, 12⟩ : OutUsage).outputTokens) :=
  ⟨⟨_, rfl, C8_usage_additive.1 "m" C7wOptions [.result ⟨"success", "ok", ⟨5, 7⟩, []⟩]
      .exhausted _ rfl⟩,
   ⟨by decide, C8_usage_additive.2 [.result ⟨"success", "ok", ⟨5, 7⟩, []⟩] .exhausted
      "stop" ⟨5, 7, 12⟩ (by decide)⟩⟩

/-- C9: the prompt flattener agrees with its specification: string-content
turns render as `role: content`, part-sequence turns as `role:` plus the
space-joined texts of the text parts (other parts dropped), turns join with
newlines, and a non-empty tool catalog appends the tool section and
instruction sentence; as a total Lean function it always returns a string
and never throws. -/
theorem C9_prompt_flattener (prompt : List PromptMessage)
    (tools : Option (List ToolDefinition)) :
    convertPromptToClaudeCodeFormat prompt tools = specFlatten prompt tools := by
  cases tools with
  | none => simp [convertPromptToClaudeCodeFormat, specFlatten, render_turns_eq]
  | some ts =>
    cases ts with
    | nil => simp [convertPromptToClaudeCodeFormat, specFlatten, render_turns_eq]
    | cons t rest =>
      have hmap : List.map renderToolDefinition rest = List.map (fun t : ToolDefinition =>
        "Tool: " ++ t.name ++ "\nDescription: " ++ t.description
          ++ "\nParameters: " ++ stringifyPretty 0 t.parameters) rest := rfl
      simp [convertPromptToClaudeCodeFormat, specFlatten, specToolSection, render_turns_eq,
        renderToolDefinition, hmap, String.append_assoc]

/-- C10: the two tool-result content normalizations diverge exactly as the
claim describes.  In `doGenerate`, a falsy non-string content serializes the
whole block (and a falsy `tool_use_id` falls back to `unknown`); in
`doStream`, a `null` or `undefined` content is reported as the empty
string. -/
theorem C10_tool_result_fallback :
    (∀ (tuid : String) (c : JSValue) (ie : Option Bool),
      isJsStr c = false → jsTruthy c = false →
      extractToolResults [SDKMessage.user (.blocks [.tool_result tuid c ie])] =
        [⟨if tuid = "" then "unknown" else tuid, "unknown", ie.getD false,
          stringify (toolResultBlockJS tuid c ie)⟩]) ∧
    (∀ (tuid : String) (c : JSValue) (ie : Option Bool), jsNonNull c = false →
      processUser (.blocks [.tool_result tuid c ie]) =
        [.tool_result tuid "unknown" (ie.getD false) ""]) := by
  constructor
  · intro tuid c ie hs ht
    cases c <;> simp_all [extractToolResults, isJsStr, jsTruthy, stringify]
  · intro tuid c ie hn
    cases c <;> simp_all [processUser, jsNonNull]

/-- C10 witness: the fallback paths evaluated at `content = 0` with a falsy
tool id, and at `content = null`. -/
theorem C10_tool_result_fallback_witness :
    extractToolResults [SDKMessage.user (.blocks [.tool_result "" (.jsNum 0) none])] =
      [⟨"unknown", "unknown", false, stringify (toolResultBlockJS "" (.jsNum 0) none)⟩] ∧
    processUser (.blocks [.tool_result "t9" .jsNull none]) =
      [.tool_result "t9" "unknown" false ""] :=
  ⟨(C10_tool_result_fallback.1 "" (.jsNum 0) none rfl rfl).trans (by decide),
   C10_tool_result_fallback.2 "t9" .jsNull none rfl⟩

end CCP
